import Mathlib

/-!
# Verification of the cluster-upgrade plan builder

A shallow embedding of the upgrade-plan builder of the `gravity` repository
(package `cluster` and package `phases` of `src/unnamed/part_000`), together
with proofs about the plans it constructs.

The phase-tree library (`lib/update`: `update.Phase`, `AddSequential`,
`AddParallel`, `AddWithDependency`, `RootPhase`, `ChildLiteral`,
`DependencyForServer`) is not part of the sources; every definition that
stands in for it is marked `Modelled from the spec:` and follows the
specification's description of the data model: a phase is identified by a
hierarchical path (parent path + child segment), carries a description, an
optional executor kind, an opaque data payload, an ordered list of children
each recorded with the attachment mode used at attach time, and a set of
dependency references (each optionally scoped to a specific node).  Per the
specification, sequential and parallel ordering are attachment modes, while
dependency references are only the explicit ones added by dependency-gated
attachment.
-/

set_option linter.unusedVariables false

/-- A cluster node (`storage.Server`): only the fields the builder consults. -/
structure Server where
  hostname : String
  selinux : Bool := false
  deriving DecidableEq, Repr

/-- A server entry of the update operation (`storage.UpdateServer`),
embedding the underlying `storage.Server`. -/
structure UpdateServer where
  server : Server
  deriving DecidableEq, Repr

/-- `UpdateServer.hostname` mirrors the promoted field of the embedded server. -/
def UpdateServer.hostname (u : UpdateServer) : String := u.server.hostname

/-- A package locator (`loc.Locator`): name and version. -/
structure Locator where
  name : String
  version : String
  deriving DecidableEq, Repr

/-- A leader-election change (`storage.ElectionChange`): servers to enable
and servers to disable for leader participation. -/
structure ElectionChange where
  enableServers : List Server
  disableServers : List Server
  deriving DecidableEq, Repr

/-- The payload of a phase (`storage.OperationPhaseData`): only the fields
the builder of these sources populates. -/
structure PhaseData where
  server : Option Server := none
  execServer : Option Server := none
  master : Option Server := none
  package : Option Locator := none
  installedPackage : Option Locator := none
  data : Option String := none
  electionChange : Option ElectionChange := none
  updateServers : Option (List UpdateServer) := none
  values : Option String := none
  deriving DecidableEq, Repr

/-- Modelled from the spec: the attachment mode of a child phase, a property
of how the child was added, recorded at attach time (`Sequential`,
`Parallel`, or `Dependency-gated`). -/
inductive AttachMode where
  | sequential
  | parallel
  | depGated
  deriving DecidableEq, Repr

/-- Modelled from the spec: a dependency reference to a phase elsewhere in
the tree, optionally scoped to a specific node (by hostname). -/
structure DepRef where
  path : String
  target : Option String := none
  deriving DecidableEq, Repr

/-- Modelled from the spec: a phase of the plan tree — hierarchical path,
description, optional executor kind, optional data payload, explicit
dependency references, the attachment mode recorded when it was attached,
and the ordered list of children. -/
inductive Phase where
  | node (id description : String) (executor : Option String)
      (data : Option PhaseData) (requires : List DepRef)
      (mode : AttachMode) (phases : List Phase) : Phase
  deriving Repr

/-- The path identifying the phase. -/
def Phase.id : Phase → String
  | .node i _ _ _ _ _ _ => i

/-- The description of the phase. -/
def Phase.description : Phase → String
  | .node _ d _ _ _ _ _ => d

/-- The executor kind of the phase (none for pure grouping nodes). -/
def Phase.executor : Phase → Option String
  | .node _ _ e _ _ _ _ => e

/-- The data payload of the phase. -/
def Phase.data : Phase → Option PhaseData
  | .node _ _ _ dt _ _ _ => dt

/-- The explicit dependency references of the phase. -/
def Phase.requires : Phase → List DepRef
  | .node _ _ _ _ r _ _ => r

/-- The attachment mode recorded for the phase. -/
def Phase.mode : Phase → AttachMode
  | .node _ _ _ _ _ m _ => m

/-- The children of the phase. -/
def Phase.subPhases : Phase → List Phase
  | .node _ _ _ _ _ _ ps => ps

/-- Replace the path of a phase. -/
def Phase.withId (p : Phase) (i : String) : Phase :=
  match p with
  | .node _ d e dt r m ps => .node i d e dt r m ps

/-- Replace the recorded attachment mode of a phase. -/
def Phase.withMode (p : Phase) (m : AttachMode) : Phase :=
  match p with
  | .node i d e dt r _ ps => .node i d e dt r m ps

/-- Replace the children of a phase. -/
def Phase.withPhases (p : Phase) (ps : List Phase) : Phase :=
  match p with
  | .node i d e dt r m _ => .node i d e dt r m ps

/-- Append a dependency reference to a phase (`Phase.Require`). -/
def Phase.addRequire (p : Phase) (dep : DepRef) : Phase :=
  match p with
  | .node i d e dt r m ps => .node i d e dt (r ++ [dep]) m ps

mutual

/-- All phases of the tree, the root included, in preorder. -/
def Phase.allPhases : Phase → List Phase
  | .node i d e dt r m ps => .node i d e dt r m ps :: allPhasesList ps

/-- All phases of a forest, in preorder. -/
def allPhasesList : List Phase → List Phase
  | [] => []
  | p :: ps => p.allPhases ++ allPhasesList ps

end

theorem allPhasesList_append (xs ys : List Phase) :
    allPhasesList (xs ++ ys) = allPhasesList xs ++ allPhasesList ys := by
  induction xs with
  | nil => rfl
  | cons p ps ih => simp [allPhasesList, ih]

theorem Phase.allPhases_def (p : Phase) :
    p.allPhases = p :: allPhasesList p.subPhases := by
  cases p; rfl

/-- Whether a path is absolute (already rooted), i.e. starts with a slash. -/
def absPath (s : String) : Bool :=
  match s.data with
  | [] => false
  | c :: _ => c == '/'

/-- Appending to an absolute path keeps it absolute. -/
theorem absPath_append (a b : String) (h : absPath a = true) :
    absPath (a ++ b) = true := by
  cases a with
  | mk da =>
    cases b with
    | mk db =>
      cases da with
      | nil => simp [absPath] at h
      | cons c rest =>
        have hd : (String.mk (c :: rest) ++ String.mk db).data =
            c :: (rest ++ db) := by
          rw [String.data_append]
          rfl
        unfold absPath at h ⊢
        rw [hd]
        exact h

/-- Split a character list on a separator character; the empty list yields
one empty piece, mirroring Go's `strings.Split` (and Lean's
`String.splitOn`) for a single-character separator. -/
def splitOnChar (sep : Char) : List Char → List (List Char)
  | [] => [[]]
  | c :: rest =>
    match splitOnChar sep rest with
    | [] => [[]]
    | hd :: tl => if c == sep then [] :: hd :: tl else (c :: hd) :: tl

/-- `strings.Split(s, sep)` for a single-character separator. -/
def goSplit (s : String) (sep : Char) : List String :=
  (splitOnChar sep s.data).map String.mk

theorem goSplit_three_tokens :
    goSplit "pool-a 1.7.0 2.2.0" ' ' = ["pool-a", "1.7.0", "2.2.0"] := by decide

theorem goSplit_empty : goSplit "" ' ' = [""] := by decide

theorem goSplit_lines :
    goSplit "p1 1.7.0\np2 1.7.0" '\n' = ["p1 1.7.0", "p2 1.7.0"] := by decide

/-- A child as recorded under a parent with path `pid`: a relative child
path becomes parent path + child segment, a path already produced by
`childLiteral` is kept; the attachment mode is recorded. -/
def attached (pid : String) (m : AttachMode) (c : Phase) : Phase :=
  (c.withId (if absPath c.id then c.id else pid ++ "/" ++ c.id)).withMode m

/-- Modelled from the spec: attach one child under a parent, recording the
attachment mode. -/
def attachOne (parent : Phase) (m : AttachMode) (c : Phase) : Phase :=
  parent.withPhases (parent.subPhases ++ [attached parent.id m c])

/-- Attach a list of children in order, all with the same mode. -/
def addChildren (m : AttachMode) (parent : Phase) (cs : List Phase) : Phase :=
  cs.foldl (fun par c => attachOne par m c) parent

/-- Modelled from the spec: `AddSequential` — attach children in strict
order (each gated on the previous succeeding, by tree position). -/
def addSequential (parent : Phase) (cs : List Phase) : Phase :=
  addChildren .sequential parent cs

/-- Modelled from the spec: `AddParallel` (and the plain `Add`) — attach
children with no ordering among siblings. -/
def addParallel (parent : Phase) (cs : List Phase) : Phase :=
  addChildren .parallel parent cs

/-- Modelled from the spec: `AddWithDependency` — attach a child that may
start only once every phase in its explicit dependency set has succeeded. -/
def addWithDependency (dep : DepRef) (parent : Phase) (c : Phase) : Phase :=
  attachOne parent .depGated (c.addRequire dep)

/-- Modelled from the spec: `RootPhase` — root a phase at the top of the
tree (its path becomes absolute). -/
def rootPhase (p : Phase) : Phase := p.withId ("/" ++ p.id)

/-- Modelled from the spec: `ChildLiteral` — the path of a child segment
under this phase. -/
def Phase.childLiteral (p : Phase) (seg : String) : String :=
  p.id ++ "/" ++ seg

/-- Modelled from the spec: `Child` — the path of a child phase under this
phase, from the child's own segment. -/
def Phase.child (p : Phase) (sub : Phase) : String :=
  p.childLiteral sub.id

/-- Modelled from the spec: `DependencyForServer` — a dependency reference
to the given phase scoped to the given node, which resolves to that node's
sub-phase of the referenced phase. -/
def DependencyForServer (phase : Phase) (server : Server) : DepRef :=
  { path := phase.id, target := some server.hostname }

theorem attachOne_child_path :
    (attachOne (.node "/m" "" none none [] .sequential []) .sequential
      (.node "drain" "" none none [] .sequential [])).subPhases.map Phase.id =
      ["/m/drain"] := by decide

/-!
## Executor kinds

The executor identifiers referenced by the builder (`updateInit`,
`drainNode`, ...) are constants declared outside these sources.  Modelled
from the spec ("an optional executor-kind reference"): each is an opaque,
pairwise-distinct name; we use the Go identifier itself as the value.
-/

def updateInit : String := "updateInit"
def updateChecks : String := "updateChecks"
def updateBootstrapSELinux : String := "updateBootstrapSELinux"
def updateBootstrap : String := "updateBootstrap"
def preUpdate : String := "preUpdate"
def coredns : String := "coredns"
def updateApp : String := "updateApp"
def migrateLinks : String := "migrateLinks"
def updateLabels : String := "updateLabels"
def migrateRoles : String := "migrateRoles"
def openebs : String := "openebs"
def updateOpenEBSPool : String := "updateOpenEBSPool"
def updateOpenEBSVolume : String := "updateOpenEBSVolume"
def kubeletPermissions : String := "kubeletPermissions"
def electionStatus : String := "electionStatus"
def drainNode : String := "drainNode"
def updateSystem : String := "updateSystem"
def nodeHealth : String := "nodeHealth"
def taintNode : String := "taintNode"
def uncordonNode : String := "uncordonNode"
def endpoints : String := "endpoints"
def untaintNode : String := "untaintNode"
def cleanupNode : String := "cleanupNode"
def updateEtcdBackup : String := "updateEtcdBackup"
def updateEtcdShutdown : String := "updateEtcdShutdown"
def updateEtcdMaster : String := "updateEtcdMaster"
def updateEtcdRestore : String := "updateEtcdRestore"
def updateEtcdRestart : String := "updateEtcdRestart"
def updateEtcdRestartGravity : String := "updateEtcdRestartGravity"

/-- `constants.GravityServiceName` (declared outside these sources); its
upstream value is the name of the cluster's own control service. -/
def gravityServiceName : String := "gravity-site"

/-- `constants.BootstrapConfigPackage` (declared outside these sources):
the name of the bootstrap/RBAC configuration package. -/
def bootstrapConfigPackage : String := "rbac-app"

/-- `etcdPhaseName` (source constant). -/
def etcdPhaseName : String := "etcd"

/-!
## Leader-election helpers (source: `electionChanges`, `setLeaderElection`,
`serversToStorage`)
-/

/-- The `electionChanges` argument record of the builder. -/
structure ElectionChanges where
  enable : List Server := []
  disable : List Server := []
  description : String := ""
  id : String := ""
  deriving DecidableEq, Repr

/-- `electionChanges.shouldAddPhase`: a phase is added iff either server
list is non-empty. -/
def ElectionChanges.shouldAddPhase (e : ElectionChanges) : Bool :=
  if e.enable.length != 0 || e.disable.length != 0 then true else false

/-- `electionChanges.ID`: the explicit id if set, otherwise `"elect"`. -/
def ElectionChanges.phaseID (e : ElectionChanges) : String :=
  if e.id != "" then e.id else "elect"

/-- `serversToStorage`: project update servers to their storage servers. -/
def serversToStorage (updates : List UpdateServer) : List Server :=
  updates.map UpdateServer.server

/-- `setLeaderElection`: a phase that changes the leader-election state in
the cluster. -/
def setLeaderElection (electionChanges : ElectionChanges)
    (server : UpdateServer) : Phase :=
  .node electionChanges.phaseID electionChanges.description
    (some electionStatus)
    (some { server := some server.server
            electionChange := some
              { enableServers := electionChanges.enable
                disableServers := electionChanges.disable } })
    [] .sequential []

/-!
## The common per-node sequence (source: `phaseBuilder.commonNode`)
-/

/-- `phaseBuilder.commonNode`: the list of operations required for any node
role to upgrade its system software. -/
def commonNode (server leadMaster : UpdateServer) (supportsTaints : Bool)
    (waitsForEndpoints : Bool) (electionChanges : ElectionChanges) :
    List Phase :=
  let phases : List Phase :=
    [ .node "drain" ("Drain node " ++ server.hostname)
        (some drainNode)
        (some { server := some server.server
                execServer := some leadMaster.server })
        [] .sequential []
    , .node "system-upgrade" ("Update system software on node " ++ server.hostname)
        (some updateSystem)
        (some { execServer := some server.server
                updateServers := some [server] })
        [] .sequential [] ]
  let phases :=
    if electionChanges.shouldAddPhase then
      phases ++ [setLeaderElection electionChanges server]
    else phases
  let phases := phases ++
    [ .node "health" ("Health check node " ++ server.hostname)
        (some nodeHealth)
        (some { server := some server.server })
        [] .sequential [] ]
  let phases :=
    if supportsTaints then
      phases ++
        [ .node "taint" ("Taint node " ++ server.hostname)
            (some taintNode)
            (some { server := some server.server
                    execServer := some leadMaster.server })
            [] .sequential [] ]
    else phases
  let phases := phases ++
    [ .node "uncordon" ("Uncordon node " ++ server.hostname)
        (some uncordonNode)
        (some { server := some server.server
                execServer := some leadMaster.server })
        [] .sequential [] ]
  let phases :=
    if waitsForEndpoints then
      phases ++
        [ .node "endpoints" ("Wait for DNS/cluster endpoints on " ++ server.hostname)
            (some endpoints)
            (some { server := some server.server
                    execServer := some leadMaster.server })
            [] .sequential [] ]
    else phases
  let phases :=
    if supportsTaints then
      phases ++
        [ .node "untaint" ("Remove taint from node " ++ server.hostname)
            (some untaintNode)
            (some { server := some server.server
                    execServer := some leadMaster.server })
            [] .sequential [] ]
    else phases
  phases

/-- `phaseBuilder.node`: a grouping phase for one node under a parent. -/
def nodePhase (server : Server) (parent : Phase) (description : String) : Phase :=
  .node (parent.childLiteral server.hostname)
    (description ++ " " ++ server.hostname) none none [] .sequential []

/-!
## Master and worker rolling upgrades (source: `phaseBuilder.masters`,
`phaseBuilder.nodes`)
-/

/-- `phaseBuilder.masters`: the phase for upgrading the master servers.
The lead master is upgraded first; if other masters exist, the lead is
stepped down before its upgrade and made leader again by its common-node
sequence, and each remaining master is then processed sequentially. -/
def masters (leadMaster : UpdateServer) (otherMasters : List UpdateServer)
    (supportsTaints : Bool) : Phase :=
  let root := rootPhase (.node "masters" "Update master nodes" none none [] .sequential [])
  let node0 := nodePhase leadMaster.server root "Update system software on master node"
  let node1 :=
    if otherMasters.length != 0 then
      let node1 := addSequential node0
        [ .node "kubelet-permissions"
            ("Add permissions to kubelet on " ++ leadMaster.hostname)
            (some kubeletPermissions)
            (some { server := some leadMaster.server }) [] .sequential [] ]
      let node2 := addSequential node1
        [ setLeaderElection
            { id := "stepdown"
              description := "Step down " ++ leadMaster.hostname ++ " as Kubernetes leader"
              disable := serversToStorage [leadMaster] }
            leadMaster ]
      let electionChanges : ElectionChanges :=
        { description := "Make node " ++ leadMaster.hostname ++ " Kubernetes leader"
          enable := serversToStorage [leadMaster]
          disable := serversToStorage otherMasters }
      addSequential node2
        (commonNode leadMaster leadMaster supportsTaints false electionChanges)
    else
      addSequential node0
        (commonNode leadMaster leadMaster supportsTaints true {})
  let root := addSequential root [node1]
  otherMasters.foldl
    (fun rt server =>
      let nd := nodePhase server.server rt "Update system software on master node"
      let electionChanges : ElectionChanges :=
        { description := "Enable leader election on node " ++ server.hostname
          enable := serversToStorage [server] }
      let nd := addSequential nd
        (commonNode server leadMaster supportsTaints true electionChanges)
      addSequential rt [nd])
    root

/-- `phaseBuilder.nodes`: the phase for upgrading the regular (worker)
nodes; each worker gets an independent common-node sequence and the workers
are attached in parallel. -/
def nodes (leadMaster : UpdateServer) (workers : List UpdateServer)
    (supportsTaints : Bool) : Phase :=
  let root := rootPhase (.node "nodes" "Update regular nodes" none none [] .sequential [])
  workers.foldl
    (fun rt server =>
      let nd := nodePhase server.server rt "Update system software on node"
      let nd := addSequential nd
        (commonNode server leadMaster supportsTaints true {})
      addParallel rt [nd])
    root

/-!
## The consensus-store (etcd) sub-plan (source: `phaseBuilder.etcdPlan` and
its per-node helpers)
-/

/-- `phaseBuilder.etcdBackupNode`. -/
def etcdBackupNode (server : Server) (parent : Phase) : Phase :=
  .node (parent.childLiteral server.hostname)
    ("Backup etcd on node " ++ server.hostname)
    (some updateEtcdBackup)
    (some { server := some server }) [] .sequential []

/-- `phaseBuilder.etcdShutdownNode`. -/
def etcdShutdownNode (server : Server) (parent : Phase) (isLeader : Bool) : Phase :=
  .node (parent.childLiteral server.hostname)
    ("Shutdown etcd on node " ++ server.hostname)
    (some updateEtcdShutdown)
    (some { server := some server
            data := some (if isLeader then "true" else "false") })
    [] .sequential []

/-- `phaseBuilder.etcdUpgrade`. -/
def etcdUpgrade (server : Server) (parent : Phase) : Phase :=
  .node (parent.childLiteral server.hostname)
    ("Upgrade etcd on node " ++ server.hostname)
    (some updateEtcdMaster)
    (some { server := some server }) [] .sequential []

/-- `phaseBuilder.etcdRestart`. -/
def etcdRestart (server : Server) (leadMaster : Server) (parent : Phase) : Phase :=
  .node (parent.childLiteral server.hostname)
    ("Restart etcd on node " ++ server.hostname)
    (some updateEtcdRestart)
    (some { server := some server
            master := some leadMaster }) [] .sequential []

/-- The backup stage of `phaseBuilder.etcdPlan`: one parallel backup phase
per master node. -/
def etcdBackupStage (leadMaster : Server) (otherMasters : List Server)
    (root : Phase) : Phase :=
  let backupEtcd : Phase := .node (root.childLiteral "backup")
    "Backup etcd data" none none [] .sequential []
  let backupEtcd := addParallel backupEtcd [etcdBackupNode leadMaster backupEtcd]
  otherMasters.foldl
    (fun st server => addParallel st [etcdBackupNode server st]) backupEtcd

/-- The shutdown stage of `phaseBuilder.etcdPlan`: one phase per master
node, each dependency-gated on that node's backup phase. -/
def etcdShutdownStage (leadMaster : Server) (otherMasters : List Server)
    (backupEtcd root : Phase) : Phase :=
  let shutdownEtcd : Phase := .node (root.childLiteral "shutdown")
    "Shutdown etcd cluster" none none [] .sequential []
  let shutdownEtcd := addWithDependency
    (DependencyForServer backupEtcd leadMaster) shutdownEtcd
    (etcdShutdownNode leadMaster shutdownEtcd true)
  otherMasters.foldl
    (fun st server => addWithDependency (DependencyForServer backupEtcd server) st
      (etcdShutdownNode server st false)) shutdownEtcd

/-- The upgrade stage of `phaseBuilder.etcdPlan`: one phase per master
node, each dependency-gated on that node's shutdown phase. -/
def etcdUpgradeStage (leadMaster : Server) (otherMasters : List Server)
    (shutdownEtcd root : Phase) : Phase :=
  let upgradeServers : Phase := .node (root.childLiteral "upgrade")
    "Upgrade etcd servers" none none [] .sequential []
  let upgradeServers := addWithDependency
    (DependencyForServer shutdownEtcd leadMaster) upgradeServers
    (etcdUpgrade leadMaster upgradeServers)
  otherMasters.foldl
    (fun st server => addWithDependency (DependencyForServer shutdownEtcd server) st
      (etcdUpgrade server st)) upgradeServers

/-- The restore phase of `phaseBuilder.etcdPlan`: a single phase on the
lead node. -/
def etcdRestoreData (leadMaster : Server) (root : Phase) : Phase :=
  .node (root.childLiteral "restore")
    "Restore etcd data from backup" (some updateEtcdRestore)
    (some { server := some leadMaster }) [] .sequential []

/-- The restart stage of `phaseBuilder.etcdPlan`: the lead's restart gated
on the restore phase, every other master's restart gated on that node's
upgrade phase, plus a parallel restart of the gravity-site service on the
lead (so that elections get unbroken). -/
def etcdRestartStage (leadMaster : Server) (otherMasters : List Server)
    (restoreData upgradeServers root : Phase) : Phase :=
  let restartMasters : Phase := .node (root.childLiteral "restart")
    "Restart etcd servers" none none [] .sequential []
  let restartMasters := addWithDependency
    (DependencyForServer restoreData leadMaster) restartMasters
    (etcdRestart leadMaster leadMaster restartMasters)
  let restartMasters := otherMasters.foldl
    (fun st server => addWithDependency (DependencyForServer upgradeServers server) st
      (etcdRestart server leadMaster st)) restartMasters
  addParallel restartMasters
    [ .node (restartMasters.childLiteral gravityServiceName)
        ("Restart " ++ gravityServiceName ++ " service")
        (some updateEtcdRestartGravity)
        (some { server := some leadMaster }) [] .sequential [] ]

/-- `phaseBuilder.etcdPlan`: the five-stage etcd upgrade sub-plan — backup,
shutdown, upgrade, restore, restart — with explicit per-node dependency
references across the stage boundaries. -/
def etcdPlan (leadMaster : Server) (otherMasters : List Server)
    (workers : List Server) (currentVersion desiredVersion : String) : Phase :=
  let root := rootPhase (.node etcdPhaseName
    (if currentVersion == "" then "Upgrade etcd to " ++ desiredVersion
     else "Upgrade etcd " ++ currentVersion ++ " to " ++ desiredVersion)
    none none [] .sequential [])
  -- Backup etcd on each master server
  let backupEtcd := etcdBackupStage leadMaster otherMasters root
  let root := addSequential root [backupEtcd]
  -- Shutdown etcd
  let shutdownEtcd := etcdShutdownStage leadMaster otherMasters backupEtcd root
  let root := addParallel root [shutdownEtcd]
  -- Upgrade servers
  let upgradeServers := etcdUpgradeStage leadMaster otherMasters shutdownEtcd root
  let root := addParallel root [upgradeServers]
  -- Restore kubernetes data
  let restoreData := etcdRestoreData leadMaster root
  let root := addSequential root [restoreData]
  -- Restart master servers
  let restartMasters := etcdRestartStage leadMaster otherMasters restoreData upgradeServers root
  addParallel root [restartMasters]

/-- Replace the executor of a phase. -/
def Phase.withExecutor (p : Phase) (e : Option String) : Phase :=
  match p with
  | .node i d _ dt r m ps => .node i d e dt r m ps

/-- Replace the data payload of a phase. -/
def Phase.withData (p : Phase) (dt : Option PhaseData) : Phase :=
  match p with
  | .node i d e _ r m ps => .node i d e dt r m ps

/-!
## The plan-builder configuration (source: `type phaseBuilder struct`
embedding `planConfig`)

The `planConfig` type and the collaborators it reaches (application
manifests, the operation record, `libphase.NeedMigrateRoles`, the two
`kubectl` discovery invocations of `openEBSUpgrade`) are outside these
sources; their results enter as fields.
-/

structure phaseBuilder where
  leadMaster : UpdateServer
  otherMasters : List UpdateServer := []
  workers : List UpdateServer := []
  /-- `r.updateApp.Package`. -/
  updateAppPackage : Locator := { name := "app", version := "2.0.0" }
  /-- `r.installedApp.Package`. -/
  installedAppPackage : Locator := { name := "app", version := "1.0.0" }
  appUpdates : List Locator := []
  runtimeUpdates : List Locator := []
  /-- `len(r.links)`. -/
  linksCount : Nat := 0
  /-- `len(r.trustedClusters)`. -/
  trustedClustersCount : Nat := 0
  /-- Modelled from the spec: the result of `libphase.NeedMigrateRoles(r.roles)`
  (declared outside these sources) — whether cluster roles need reformatting. -/
  needMigrateRoles : Bool := false
  /-- `r.operation.Vars().Values`. -/
  values : Option String := none
  needsCoreDNS : Bool := false
  taintsSupported : Bool := false
  etcdUpdateNeeded : Bool := false
  etcdCurrentVersion : String := ""
  etcdDesiredVersion : String := ""
  /-- Modelled from the spec: whether storage components were discovered,
  gating the storage-component upgrade sub-plan. -/
  storageComponentsDiscovered : Bool := false
  /-- The output of the pool discovery command (`utils.Exec`, first call of
  `openEBSUpgrade`); an `error` value is a failed command execution. -/
  poolQuery : Except String String := .ok ""
  /-- The output of the volume discovery command (second call of
  `openEBSUpgrade`). -/
  volumeQuery : Except String String := .ok ""

/-- `r.servers`: all servers of the operation. -/
def phaseBuilder.servers (r : phaseBuilder) : List UpdateServer :=
  r.leadMaster :: (r.otherMasters ++ r.workers)

/-- `phaseBuilder.init`. -/
def phaseBuilder.init (r : phaseBuilder) (leadMaster : Server) : Phase :=
  rootPhase (.node "init" "Initialize update operation" (some updateInit)
    (some { package := some r.updateAppPackage
            execServer := some leadMaster
            installedPackage := some r.installedAppPackage
            updateServers := some r.servers }) [] .sequential [])

/-- `phaseBuilder.checks`. -/
def phaseBuilder.checks (r : phaseBuilder) : Phase :=
  rootPhase (.node "checks" "Run preflight checks" (some updateChecks)
    (some { package := some r.updateAppPackage
            installedPackage := some r.installedAppPackage }) [] .sequential [])

/-- `phaseBuilder.hasSELinuxPhase`. -/
def phaseBuilder.hasSELinuxPhase (r : phaseBuilder) : Bool :=
  r.servers.any (fun s => s.server.selinux)

/-- `phaseBuilder.bootstrapSELinux`: a parallel child per node that
requires SELinux configuration. -/
def phaseBuilder.bootstrapSELinux (r : phaseBuilder) : Phase :=
  let root := rootPhase (.node "selinux-bootstrap" "Configure SELinux on nodes"
    none none [] .sequential [])
  r.servers.foldl
    (fun rt server =>
      if server.server.selinux then
        addParallel rt
          [ .node (rt.childLiteral server.hostname)
              ("Configure SELinux on node " ++ server.hostname)
              (some updateBootstrapSELinux)
              (some { execServer := some server.server
                      package := some r.updateAppPackage
                      installedPackage := some r.installedAppPackage
                      updateServers := some [server] }) [] .sequential [] ]
      else rt)
    root

/-- `phaseBuilder.bootstrap`: a parallel child per node. -/
def phaseBuilder.bootstrap (r : phaseBuilder) : Phase :=
  let root := rootPhase (.node "bootstrap" "Bootstrap update operation on nodes"
    none none [] .sequential [])
  r.servers.foldl
    (fun rt server =>
      addParallel rt
        [ .node (rt.childLiteral server.hostname)
            ("Bootstrap node " ++ server.hostname)
            (some updateBootstrap)
            (some { execServer := some server.server
                    package := some r.updateAppPackage
                    installedPackage := some r.installedAppPackage
                    updateServers := some [server] }) [] .sequential [] ])
    root

/-- `phaseBuilder.preUpdate` (named `preUpdatePhase` here because the
executor constant of the same phase is also called `preUpdate`). -/
def phaseBuilder.preUpdatePhase (r : phaseBuilder) : Phase :=
  rootPhase (.node "pre-update" "Run pre-update application hook"
    (some preUpdate)
    (some { package := some r.updateAppPackage }) [] .sequential [])

/-- `phaseBuilder.corednsPhase`. -/
def phaseBuilder.corednsPhase (r : phaseBuilder) (leadMaster : Server) : Phase :=
  rootPhase (.node "coredns" "Provision CoreDNS resources" (some coredns)
    (some { server := some leadMaster }) [] .sequential [])

/-- `phaseBuilder.app`: a parallel child per updated application package. -/
def phaseBuilder.app (r : phaseBuilder) (updates : List Locator) : Phase :=
  let root := rootPhase (.node "app" "Update installed application"
    none none [] .sequential [])
  updates.foldl
    (fun rt loc =>
      addParallel rt
        [ .node loc.name
            ("Update application " ++ loc.name ++ " to " ++ loc.version)
            (some updateApp)
            (some { package := some loc, values := r.values }) [] .sequential [] ])
    root

/-- `phaseBuilder.migration`: the migration phase, or `none` when the
collected sub-phase list is empty. -/
def phaseBuilder.migration (r : phaseBuilder) (leadMaster : Server) : Option Phase :=
  let root := rootPhase (.node "migration" "Perform system database migration"
    none none [] .sequential [])
  -- do we need to migrate links to trusted clusters?
  let subphases : List Phase :=
    if r.linksCount != 0 && r.trustedClustersCount == 0 then
      [ .node (root.childLiteral "links")
          "Migrate remote Gravity Hub links to trusted clusters"
          (some migrateLinks) none [] .sequential [] ]
    else []
  -- Update / reset the labels during upgrade
  let subphases := subphases ++
    [ .node (root.childLiteral "labels") "Update node labels"
        (some updateLabels) none [] .sequential [] ]
  -- migrate roles
  let subphases :=
    if r.needMigrateRoles then
      subphases ++
        [ .node (root.childLiteral "roles")
            "Migrate cluster roles to a new format"
            (some migrateRoles)
            (some { execServer := some leadMaster }) [] .sequential [] ]
    else subphases
  -- no migrations needed
  if subphases.length == 0 then none
  else some (addParallel root subphases)

/-- `phaseBuilder.openEBS`. -/
def phaseBuilder.openEBS (r : phaseBuilder) (leadMaster : UpdateServer) : Phase :=
  rootPhase (.node "openebs" "Create OpenEBS configuration" (some openebs)
    (some { execServer := some leadMaster.server }) [] .sequential [])

/-- `phaseBuilder.openEBSUpgrade`: one sequential upgrade phase per
discovered pool, then one per discovered volume; an execution failure or an
empty discovery output for either resource kind is an error. -/
def phaseBuilder.openEBSUpgrade (r : phaseBuilder) (leadMaster : UpdateServer)
    (root : Phase) : Except String Phase :=
  -- Upgrade pools
  match r.poolQuery with
  | .error e => .error e
  | .ok commandOutput =>
    if commandOutput.length == 0 then .error "failed to get pool info"
    else
      let poolsAndVersion := goSplit commandOutput '\n'
      let root := poolsAndVersion.foldl
        (fun rt poolAndVer =>
          addSequential rt
            [ .node "openebs-upgrade-pool"
                ("Upgrade OpenEBS cStor pool: " ++ poolAndVer)
                (some updateOpenEBSPool)
                (some { data := some poolAndVer }) [] .sequential [] ])
        root
      -- Upgrade volumes
      match r.volumeQuery with
      | .error e => .error e
      | .ok volumeOutput =>
        if volumeOutput.length == 0 then .error "failed to get pool info"
        else
          let volumesAndVersion := goSplit volumeOutput '\n'
          .ok (volumesAndVersion.foldl
            (fun rt volAndVer =>
              addSequential rt
                [ .node (root.childLiteral "openebs-upgrade-volume")
                    ("Upgrade OpenEBS cStor volume: " ++ volAndVer)
                    (some updateOpenEBSVolume)
                    (some { data := some volAndVer }) [] .sequential [] ])
            root)

/-- `phaseBuilder.runtime`: sequential children per runtime package, the
bootstrap/RBAC package ordered first (the effect of the `sort.Slice`
call, whose comparator pushes that package to the front). -/
def runtime (updates : List Locator) : Phase :=
  let root := rootPhase (.node "runtime" "Update application runtime"
    none none [] .sequential [])
  let sorted := updates.filter (fun l => l.name == bootstrapConfigPackage) ++
    updates.filter (fun l => !(l.name == bootstrapConfigPackage))
  sorted.foldl
    (fun rt loc =>
      let phase : Phase := .node loc.name
        ("Update system application " ++ loc.name ++ " to " ++ loc.version)
        (some updateApp)
        (some { package := some loc }) [] .sequential []
      let phase := phase.withId (rt.child phase)
      addSequential rt [phase])
    root

/-- `phaseBuilder.cleanup`: a parallel cleanup child per node. -/
def phaseBuilder.cleanup (r : phaseBuilder) : Phase :=
  let root := rootPhase (.node "gc" "Run cleanup tasks" none none [] .sequential [])
  r.servers.foldl
    (fun rt server =>
      let nd := nodePhase server.server rt "Clean up node"
      let nd := nd.withExecutor (some cleanupNode)
      let nd := nd.withData (some { server := some server.server })
      addParallel rt [nd])
    root

/-- Modelled from the spec: the top-level plan assembly — one ordered
top-level sequence in the fixed stage order init, preflight checks,
SELinux bootstrap (if any node requires it), bootstrap, pre-update hook,
DNS provisioning (if required), application updates, storage-component
upgrade sub-plan (if components discovered), runtime updates,
consensus-store sub-plan (if the version delta is nonzero), master rolling
upgrade, worker rolling upgrade, migration (omitted entirely if nothing
needs migrating), cleanup.  A sub-builder failure aborts construction and
no plan results. -/
def buildPlan (r : phaseBuilder) : Except String Phase :=
  let root : Phase := .node "" "Upgrade operation plan" none none [] .sequential []
  let root := addSequential root [r.init r.leadMaster.server]
  let root := addSequential root [r.checks]
  let root := if r.hasSELinuxPhase then addSequential root [r.bootstrapSELinux] else root
  let root := addSequential root [r.bootstrap]
  let root := addSequential root [r.preUpdatePhase]
  let root := if r.needsCoreDNS then
    addSequential root [r.corednsPhase r.leadMaster.server] else root
  let root := addSequential root [r.app r.appUpdates]
  let storageStage : Except String (Option Phase) :=
    if r.storageComponentsDiscovered then
      match r.openEBSUpgrade r.leadMaster (r.openEBS r.leadMaster) with
      | .error e => .error e
      | .ok st => .ok (some st)
    else .ok none
  match storageStage with
  | .error e => .error e
  | .ok st =>
    let root := match st with
      | some stage => addSequential root [stage]
      | none => root
    let root := addSequential root [runtime r.runtimeUpdates]
    let root := if r.etcdUpdateNeeded then
      addSequential root
        [ etcdPlan r.leadMaster.server (serversToStorage r.otherMasters)
            (serversToStorage r.workers) r.etcdCurrentVersion r.etcdDesiredVersion ]
      else root
    let root := addSequential root [masters r.leadMaster r.otherMasters r.taintsSupported]
    let root := addSequential root [nodes r.leadMaster r.workers r.taintsSupported]
    let root := match r.migration r.leadMaster.server with
      | some m => addSequential root [m]
      | none => root
    .ok (addSequential root [r.cleanup])

/-!
## Etcd version detection (source: `shouldUpdateEtcd`, `getEtcdVersion`)

Package manifests and the `trace` error kinds are modelled; semantic
versions are modelled as numeric `major.minor.patch` triples (the
`semver.Version` comparison as used here is the lexicographic comparison
of those components).
-/

/-- A `trace` error, remembering whether it is a not-found error
(`trace.IsNotFound`). -/
inductive TraceErr where
  | notFound (msg : String)
  | other (msg : String)
  deriving DecidableEq, Repr

/-- A package-manifest label. -/
structure ManifestLabel where
  name : String
  value : String
  deriving DecidableEq, Repr

/-- A package manifest: its labels. -/
structure PkgManifest where
  labels : List ManifestLabel
  deriving DecidableEq, Repr

/-- A semantic version (`semver.Version`), reduced to its numeric
components. -/
structure SemVer where
  major : Nat
  minor : Nat
  patch : Nat
  deriving DecidableEq, Repr

/-- Accumulate the decimal digits of a character list. -/
def parseNatAux (acc : Nat) : List Char → Option Nat
  | [] => some acc
  | c :: rest => if c.isDigit then parseNatAux (acc * 10 + (c.toNat - 48)) rest else none

/-- Parse a non-empty all-digit string as a natural number. -/
def goParseNat (s : String) : Option Nat :=
  match s.data with
  | [] => none
  | l => parseNatAux 0 l

/-- `semver.NewVersion`: parse a dotted numeric version string. -/
def SemVer.parse (s : String) : Option SemVer :=
  match goSplit s '.' with
  | [a, b, c] =>
    match goParseNat a, goParseNat b, goParseNat c with
    | some ma, some mi, some pa => some ⟨ma, mi, pa⟩
    | _, _, _ => none
  | _ => none

/-- `Version.Compare ... < 0`: strict lexicographic order on versions. -/
def SemVer.ltv (v w : SemVer) : Bool :=
  v.major < w.major ||
    (v.major == w.major && (v.minor < w.minor ||
      (v.minor == w.minor && v.patch < w.patch)))

/-- `Version.String`. -/
def SemVer.render (v : SemVer) : String :=
  toString v.major ++ "." ++ toString v.minor ++ "." ++ toString v.patch

/-- `strings.TrimPrefix(value, "v")`. -/
def trimV (s : String) : String :=
  match s.data with
  | 'v' :: rest => String.mk rest
  | _ => s

/-- `getEtcdVersion`: look up the manifest of the package and scan its
labels for the search label; a missing manifest or a malformed version is
an error, a missing label is a not-found error. -/
def getEtcdVersion (searchLabel : String) (locator : Locator)
    (packages : List (Locator × PkgManifest)) : Except TraceErr SemVer :=
  match packages.lookup locator with
  | none => .error (.notFound ("manifest not found for " ++ locator.name))
  | some manifest =>
    match manifest.labels.find? (fun l => l.name == searchLabel) with
    | some label =>
      match SemVer.parse (trimV label.value) with
      | some v => .ok v
      | none => .error (.other ("bad version " ++ label.value))
    | none => .error (.notFound
        ("package manifest for " ++ locator.name ++ " does not have label " ++ searchLabel))

/-- The inputs `shouldUpdateEtcd` consumes from its `planConfig`: the
runtime-package lookups of the two application manifests (collaborators
outside these sources) and the package service contents. -/
structure EtcdPlanConfig where
  /-- `p.installedRuntime.Manifest.DefaultRuntimePackage()`. -/
  installedDefaultRuntimePackage : Except TraceErr Locator
  /-- `p.installedRuntime.Manifest.Dependencies.ByName(loc.LegacyPlanetMaster.Name)`. -/
  installedLegacyRuntimePackage : Option Locator
  /-- `p.updateRuntime.Manifest.DefaultRuntimePackage()`. -/
  updateDefaultRuntimePackage : Except TraceErr Locator
  /-- The manifests served by `p.packageService`. -/
  packages : List (Locator × PkgManifest)

/-- The tail of `shouldUpdateEtcd` once the installed runtime package is
resolved: look up the installed etcd version (a not-found lookup leaves it
undetermined and forces the upgrade), then the update's etcd version, and
compare. -/
def shouldUpdateEtcdFrom (p : EtcdPlanConfig) (runtimePackage : Locator) :
    Except TraceErr (Bool × String × String) :=
  let step := getEtcdVersion "version-etcd" runtimePackage p.packages
  match step with
  | .error (.other m) => .error (.other m)
  | _ =>
    -- if the currently installed version doesn't have etcd version
    -- information, it needs to be upgraded
    let installedVersion : Option SemVer :=
      match step with
      | .ok v => some v
      | _ => none
    let updateEtcd := installedVersion.isNone
    match p.updateDefaultRuntimePackage with
    | .error e => .error e
    | .ok updateRuntimePackage =>
      match getEtcdVersion "version-etcd" updateRuntimePackage p.packages with
      | .error e => .error e
      | .ok updateVersion =>
        let updateEtcd := if installedVersion.isNone ||
            (installedVersion.getD ⟨0,0,0⟩).ltv updateVersion then true else updateEtcd
        let installedEtcdVersion :=
          match installedVersion with
          | some v => v.render
          | none => ""
        .ok (updateEtcd, installedEtcdVersion, updateVersion.render)

/-- `shouldUpdateEtcd`: decide whether etcd must be upgraded and report the
installed and desired etcd versions.  An installed runtime package with no
etcd version label (a not-found lookup) forces an upgrade, as does an
installed version lower than the update's version. -/
def shouldUpdateEtcd (p : EtcdPlanConfig) :
    Except TraceErr (Bool × String × String) :=
  match p.installedDefaultRuntimePackage with
  | .error (.other m) => .error (.other m)
  | .error (.notFound _) =>
    match p.installedLegacyRuntimePackage with
    | none => .error (.notFound "runtime package not found")
    | some rp => shouldUpdateEtcdFrom p rp
  | .ok rp => shouldUpdateEtcdFrom p rp

/-!
## The component-upgrade executor constructors (source, package `phases`:
`NewPhaseUpgradePool`, `NewPhaseUpgradeVolume`)

Both constructors split the opaque payload on single spaces and index the
first three elements without any length check; a Go index out of range is a
runtime panic, modelled as a distinct `crashed` outcome.
-/

/-- The outcome of a Go call that can return a value, return an error, or
panic. -/
inductive GoResult (α : Type) where
  | ok (a : α)
  | err (msg : String)
  | crashed (msg : String)
  deriving DecidableEq, Repr

/-- The fields of `PhaseUpgradePool` the constructor fills from the payload. -/
structure PhaseUpgradePool where
  pool : String
  fromVersion : String
  toVersion : String
  deriving DecidableEq, Repr

/-- The fields of `PhaseUpgradeVolume` the constructor fills from the payload. -/
structure PhaseUpgradeVolume where
  volume : String
  fromVersion : String
  toVersion : String
  deriving DecidableEq, Repr

/-- `NewPhaseUpgradePool`: `poolAndVer := strings.Split(phase.Data.Data, " ")`
followed by unchecked indexing `poolAndVer[0..2]`. -/
def NewPhaseUpgradePool (payload : String) : GoResult PhaseUpgradePool :=
  let poolAndVer := goSplit payload ' '
  match poolAndVer.get? 0, poolAndVer.get? 1, poolAndVer.get? 2 with
  | some a, some b, some c => .ok { pool := a, fromVersion := b, toVersion := c }
  | _, _, _ => .crashed "runtime error: index out of range"

/-- `NewPhaseUpgradeVolume`: identical unchecked parse of the payload. -/
def NewPhaseUpgradeVolume (payload : String) : GoResult PhaseUpgradeVolume :=
  let volAndVer := goSplit payload ' '
  match volAndVer.get? 0, volAndVer.get? 1, volAndVer.get? 2 with
  | some a, some b, some c => .ok { volume := a, fromVersion := b, toVersion := c }
  | _, _, _ => .crashed "runtime error: index out of range"

/-!
## The upgrade-job driver (source, package `phases`: `execUpgradeJob`)

The external collaborators (template rendering, the manifest file write,
`kubectl.Apply`, `hooks.NewRunner`, `runner.StreamLogs`, the job re-fetch)
enter as recorded outcomes.
-/

/-- The fetched job status (`job.Status.Failed`: the failed-pod count). -/
structure K8sJob where
  statusFailed : Nat
  deriving DecidableEq, Repr

/-- The recorded outcomes of the collaborators `execUpgradeJob` drives, in
call order. -/
structure JobEnv where
  /-- `template.Execute` error. -/
  renderErr : Option String := none
  /-- `ioutil.WriteFile` error. -/
  writeErr : Option String := none
  /-- `kubectl.Apply` captured output. -/
  applyOut : String := ""
  /-- `kubectl.Apply` error. -/
  applyErr : Option String := none
  /-- `hooks.NewRunner` error. -/
  runnerErr : Option String := none
  /-- `runner.StreamLogs` error (the wait/log-stream step). -/
  streamErr : Option String := none
  /-- The accumulated log buffer after streaming. -/
  logs : String := ""
  /-- `client.BatchV1().Jobs(...).Get` error. -/
  getErr : Option String := none
  /-- The re-fetched job. -/
  job : K8sJob := { statusFailed := 0 }

/-- `execUpgradeJob`: render the manifest, write it, apply it, stream the
job's logs to completion, then re-fetch the job and fail if it reports any
failed pods.  Returns the captured output and the error, if any. -/
def execUpgradeJob (e : JobEnv) : String × Option String :=
  match e.renderErr with
  | some m => ("", some m)
  | none =>
    match e.writeErr with
    | some m => ("", some m)
    | none =>
      match e.applyErr with
      | some m => ("Failed to exec kubectl: " ++ e.applyOut, some m)
      | none =>
        match e.runnerErr with
        | some m => ("", some m)
        | none =>
          match e.streamErr with
          | some m => (e.logs, some m)
          | none =>
            match e.getErr with
            | some m => (e.logs, some m)
            | none =>
              if e.job.statusFailed != 0 then
                (e.logs, some "upgrade job has failed pods")
              else
                (e.logs, none)

/-!
## Analysis helpers and structural lemmas
-/

/-- The server a phase targets, per its data payload. -/
def Phase.dataServer (p : Phase) : Option Server :=
  p.data.bind PhaseData.server

/-- The election change a phase carries, per its data payload. -/
def Phase.dataElection (p : Phase) : Option ElectionChange :=
  p.data.bind PhaseData.electionChange

/-- The dependency edges of the tree: for every phase and every dependency
reference it carries, the pair (phase path, referenced path). -/
def depEdges (t : Phase) : List (String × String) :=
  t.allPhases.flatMap (fun p => p.requires.map (fun d => (p.id, d.path)))

/-- Every dependency reference of the tree resolves to a phase that exists
in the tree. -/
def NoDangling (t : Phase) : Prop :=
  ∀ p ∈ t.allPhases, ∀ d ∈ p.requires, ∃ q ∈ t.allPhases, q.id = d.path

/-- The dependency graph of the tree is acyclic: some rank strictly
decreases along every dependency edge. -/
def AcyclicDeps (t : Phase) : Prop :=
  ∃ f : String → Nat, ∀ p ∈ t.allPhases, ∀ d ∈ p.requires, f d.path < f p.id

theorem Phase.id_withPhases (p : Phase) (ps : List Phase) :
    (p.withPhases ps).id = p.id := by cases p; rfl

theorem Phase.subPhases_withPhases (p : Phase) (ps : List Phase) :
    (p.withPhases ps).subPhases = ps := by cases p; rfl

theorem Phase.requires_withPhases (p : Phase) (ps : List Phase) :
    (p.withPhases ps).requires = p.requires := by cases p; rfl

theorem Phase.executor_withPhases (p : Phase) (ps : List Phase) :
    (p.withPhases ps).executor = p.executor := by cases p; rfl

theorem Phase.data_withPhases (p : Phase) (ps : List Phase) :
    (p.withPhases ps).data = p.data := by cases p; rfl

theorem Phase.withPhases_withPhases (p : Phase) (ps qs : List Phase) :
    (p.withPhases ps).withPhases qs = p.withPhases qs := by cases p; rfl

theorem Phase.withPhases_self (p : Phase) : p.withPhases p.subPhases = p := by
  cases p; rfl

theorem attached_id (pid : String) (m : AttachMode) (c : Phase) :
    (attached pid m c).id = if absPath c.id then c.id else pid ++ "/" ++ c.id := by
  cases c; rfl

theorem attached_requires (pid : String) (m : AttachMode) (c : Phase) :
    (attached pid m c).requires = c.requires := by cases c; rfl

theorem attached_executor (pid : String) (m : AttachMode) (c : Phase) :
    (attached pid m c).executor = c.executor := by cases c; rfl

theorem attached_data (pid : String) (m : AttachMode) (c : Phase) :
    (attached pid m c).data = c.data := by cases c; rfl

theorem attached_mode (pid : String) (m : AttachMode) (c : Phase) :
    (attached pid m c).mode = m := by cases c; rfl

theorem attached_subPhases (pid : String) (m : AttachMode) (c : Phase) :
    (attached pid m c).subPhases = c.subPhases := by cases c; rfl

theorem attachOne_id (parent : Phase) (m : AttachMode) (c : Phase) :
    (attachOne parent m c).id = parent.id := by
  simp [attachOne, Phase.id_withPhases]

/-- `addChildren` appends the attached children, resolved against the
parent's (unchanging) path. -/
theorem addChildren_eq (m : AttachMode) (parent : Phase) (cs : List Phase) :
    addChildren m parent cs =
      parent.withPhases (parent.subPhases ++ cs.map (attached parent.id m)) := by
  induction cs generalizing parent with
  | nil => simp [addChildren, Phase.withPhases_self]
  | cons c cs ih =>
    have h1 : addChildren m parent (c :: cs) = addChildren m (attachOne parent m c) cs := rfl
    rw [h1, ih]
    simp [attachOne, Phase.withPhases_withPhases, Phase.id_withPhases,
      Phase.subPhases_withPhases]

theorem addChildren_id (m : AttachMode) (parent : Phase) (cs : List Phase) :
    (addChildren m parent cs).id = parent.id := by
  rw [addChildren_eq]; exact Phase.id_withPhases ..

/-- A fold that attaches per-element children (computed from the parent's
path) appends all of them, resolved against the initial path. -/
theorem foldl_attach_shape {α : Type} (m : AttachMode)
    (f : String → α → List Phase) (step : Phase → α → Phase)
    (hstep : ∀ rt a, step rt a = addChildren m rt (f rt.id a))
    (l : List α) (parent : Phase) :
    l.foldl step parent =
      parent.withPhases (parent.subPhases ++
        l.flatMap (fun a => (f parent.id a).map (attached parent.id m))) := by
  induction l generalizing parent with
  | nil => simp [Phase.withPhases_self]
  | cons a l ih =>
    have h1 : (a :: l).foldl step parent = l.foldl step (step parent a) := rfl
    rw [h1, hstep, ih, addChildren_eq]
    simp [Phase.withPhases_withPhases, Phase.id_withPhases, Phase.subPhases_withPhases]

theorem mem_allPhasesList {q : Phase} {ps : List Phase} :
    q ∈ allPhasesList ps ↔ ∃ c ∈ ps, q ∈ c.allPhases := by
  induction ps with
  | nil => simp [allPhasesList]
  | cons p ps ih => simp [allPhasesList, ih]

theorem mem_allPhases_iff {q p : Phase} :
    q ∈ p.allPhases ↔ q = p ∨ ∃ c ∈ p.subPhases, q ∈ c.allPhases := by
  rw [Phase.allPhases_def]
  simp [mem_allPhasesList]

theorem self_mem_allPhases (p : Phase) : p ∈ p.allPhases := by
  rw [Phase.allPhases_def]; exact List.mem_cons_self ..

/-- Requires-emptiness of a whole subtree. -/
def ReqsEmpty (t : Phase) : Prop := ∀ p ∈ t.allPhases, p.requires = []

theorem reqsEmpty_iff {t : Phase} :
    ReqsEmpty t ↔ t.requires = [] ∧ ∀ c ∈ t.subPhases, ReqsEmpty c := by
  constructor
  · intro h
    refine ⟨h t (self_mem_allPhases t), fun c hc p hp => ?_⟩
    exact h p (mem_allPhases_iff.mpr (Or.inr ⟨c, hc, hp⟩))
  · rintro ⟨h1, h2⟩ p hp
    rcases mem_allPhases_iff.mp hp with rfl | ⟨c, hc, hp⟩
    · exact h1
    · exact h2 c hc p hp

theorem reqsEmpty_attached {pid : String} {m : AttachMode} {c : Phase}
    (h : ReqsEmpty c) : ReqsEmpty (attached pid m c) := by
  rw [reqsEmpty_iff] at h ⊢
  rw [attached_requires, attached_subPhases]
  exact h

theorem reqsEmpty_withPhases {p : Phase} {ps : List Phase}
    (hp : p.requires = []) (h : ∀ c ∈ ps, ReqsEmpty c) :
    ReqsEmpty (p.withPhases ps) := by
  rw [reqsEmpty_iff, Phase.requires_withPhases, Phase.subPhases_withPhases]
  exact ⟨hp, h⟩

theorem reqsEmpty_leaf (i d : String) (e : Option String) (dt : Option PhaseData)
    (m : AttachMode) : ReqsEmpty (.node i d e dt [] m []) := by
  rw [reqsEmpty_iff]
  exact ⟨rfl, by simp [Phase.subPhases]⟩

/-!
## C8 — contents and order of the common-node sequence
-/

theorem shouldAddPhase_iff (e : ElectionChanges) :
    e.shouldAddPhase = true ↔ (e.enable ≠ [] ∨ e.disable ≠ []) := by
  unfold ElectionChanges.shouldAddPhase
  cases he : e.enable <;> cases hd : e.disable <;> simp

/-- The executors of the common-node sequence, in order, as a function of
the three switches. -/
theorem commonNode_executors (s lm : UpdateServer) (st wfe : Bool)
    (ec : ElectionChanges) :
    (commonNode s lm st wfe ec).map Phase.executor =
      [some drainNode, some updateSystem] ++
      (if ec.shouldAddPhase then [some electionStatus] else []) ++
      [some nodeHealth] ++
      (if st then [some taintNode] else []) ++
      [some uncordonNode] ++
      (if wfe then [some endpoints] else []) ++
      (if st then [some untaintNode] else []) := by
  cases h1 : ec.shouldAddPhase <;> cases st <;> cases wfe <;>
    simp [commonNode, h1, setLeaderElection, Phase.executor]

/-- C8: for every node and every combination of flags, the common-node
sequence contains the taint and untaint phases iff taint support is
enabled, the endpoint-wait phase iff it is requested, the leader-election
phase iff a non-empty election change is supplied, and the relative order
of its phases is always drain → system upgrade → [election] → health →
[taint] → uncordon → [endpoints] → [untaint]. -/
theorem c8_commonNode_contents_and_order (s lm : UpdateServer) (st wfe : Bool)
    (ec : ElectionChanges) :
    ((commonNode s lm st wfe ec).map Phase.executor).Sublist
      [some drainNode, some updateSystem, some electionStatus, some nodeHealth,
        some taintNode, some uncordonNode, some endpoints, some untaintNode] ∧
    some drainNode ∈ (commonNode s lm st wfe ec).map Phase.executor ∧
    some updateSystem ∈ (commonNode s lm st wfe ec).map Phase.executor ∧
    some nodeHealth ∈ (commonNode s lm st wfe ec).map Phase.executor ∧
    some uncordonNode ∈ (commonNode s lm st wfe ec).map Phase.executor ∧
    ((some taintNode ∈ (commonNode s lm st wfe ec).map Phase.executor) ↔ st = true) ∧
    ((some untaintNode ∈ (commonNode s lm st wfe ec).map Phase.executor) ↔ st = true) ∧
    ((some endpoints ∈ (commonNode s lm st wfe ec).map Phase.executor) ↔ wfe = true) ∧
    ((some electionStatus ∈ (commonNode s lm st wfe ec).map Phase.executor) ↔
      (ec.enable ≠ [] ∨ ec.disable ≠ [])) := by
  rw [← shouldAddPhase_iff]
  rw [commonNode_executors]
  cases h1 : ec.shouldAddPhase <;> cases st <;> cases wfe <;>
    refine ⟨by decide, by decide, by decide, by decide, by decide, by decide,
      by decide, by decide, by decide⟩

/-!
## C3 — the migration sub-plan
-/

/-- The executors of the children of a phase are those of the children it
was handed (attachment does not change executors). -/
theorem map_executor_map_attached (pid : String) (m : AttachMode)
    (cs : List Phase) :
    (cs.map (attached pid m)).map Phase.executor = cs.map Phase.executor := by
  simp only [List.map_map]
  exact List.map_congr_left (fun c hc => attached_executor ..)

/-- A phase was attached with the mode it was mapped with. -/
theorem mode_of_mem_map_attached {pid : String} {m : AttachMode} {cs : List Phase}
    {c : Phase} (hc : c ∈ cs.map (attached pid m)) : c.mode = m := by
  rcases List.mem_map.mp hc with ⟨c0, _, rfl⟩
  exact attached_mode ..

theorem addParallel_subPhases (parent : Phase) (cs : List Phase) :
    (addParallel parent cs).subPhases =
      parent.subPhases ++ cs.map (attached parent.id .parallel) := by
  rw [addParallel, addChildren_eq, Phase.subPhases_withPhases]

/-- The first trigger condition of the migration sub-plan: legacy links
with no trusted clusters. -/
def migrationLinksTrigger (r : phaseBuilder) : Prop :=
  r.linksCount ≠ 0 ∧ r.trustedClustersCount = 0

/-- The second trigger condition: cluster roles need reformatting. -/
def migrationRolesTrigger (r : phaseBuilder) : Prop :=
  r.needMigrateRoles = true

/-- The third trigger condition per the spec: the node-label refresh
applies (always, exactly) when either of the other two conditions does. -/
def migrationLabelsTrigger (r : phaseBuilder) : Prop :=
  migrationLinksTrigger r ∨ migrationRolesTrigger r

instance (r : phaseBuilder) : Decidable (migrationLinksTrigger r) := by
  unfold migrationLinksTrigger; infer_instance

instance (r : phaseBuilder) : Decidable (migrationRolesTrigger r) := by
  unfold migrationRolesTrigger; infer_instance

instance (r : phaseBuilder) : Decidable (migrationLabelsTrigger r) := by
  unfold migrationLabelsTrigger; infer_instance

/-- The root grouping phase of the migration sub-plan. -/
def migrationRootPhase : Phase :=
  rootPhase (.node "migration" "Perform system database migration" none none [] .sequential [])

/-- The links-migration sub-phase. -/
def migrationLinksPhase : Phase :=
  .node (migrationRootPhase.childLiteral "links")
    "Migrate remote Gravity Hub links to trusted clusters"
    (some migrateLinks) none [] .sequential []

/-- The label-refresh sub-phase. -/
def migrationLabelsPhase : Phase :=
  .node (migrationRootPhase.childLiteral "labels") "Update node labels"
    (some updateLabels) none [] .sequential []

/-- The roles-migration sub-phase. -/
def migrationRolesPhase (lead : Server) : Phase :=
  .node (migrationRootPhase.childLiteral "roles")
    "Migrate cluster roles to a new format" (some migrateRoles)
    (some { execServer := some lead }) [] .sequential []

/-- The migration builder always takes its `some` branch: the label-refresh
sub-phase is appended unconditionally, so the collected list is never
empty. -/
theorem migration_eq (r : phaseBuilder) (lead : Server) :
    r.migration lead = some (addParallel migrationRootPhase
      ((if (r.linksCount != 0 && r.trustedClustersCount == 0) then [migrationLinksPhase] else []) ++
        [migrationLabelsPhase] ++
        (if r.needMigrateRoles then [migrationRolesPhase lead] else []))) := by
  cases h1 : (r.linksCount != 0 && r.trustedClustersCount == 0) <;>
    cases h2 : r.needMigrateRoles <;>
      simp [phaseBuilder.migration, h1, h2, migrationRootPhase, migrationLinksPhase,
        migrationLabelsPhase, migrationRolesPhase]

/-- A builder configuration with no migration trigger at all. -/
def noMigrationBuilder : phaseBuilder :=
  { leadMaster := { server := { hostname := "node-1" } } }

/-- C3 counterexample: with no links, no trusted clusters and no role
migration needed, none of the claim's three trigger conditions holds, yet
the migration builder still returns a phase (never `nil`): the claim as
stated is false at this input. -/
theorem c3_counterexample :
    ¬ (migrationLinksTrigger noMigrationBuilder ∨
        migrationRolesTrigger noMigrationBuilder ∨
        migrationLabelsTrigger noMigrationBuilder) ∧
    (noMigrationBuilder.migration { hostname := "node-1" }).isSome = true := by
  constructor
  · decide
  · rfl

/-- C3 amended: the migration builder always returns a phase; the returned
phase always includes the label-refresh sub-step; the links and roles
sub-steps are attached exactly when their trigger conditions hold; and all
sub-steps are attached in parallel.  (The `nil` return of the source is
unreachable because the label-refresh sub-step is appended
unconditionally.) -/
theorem c3_migration_always_returns_phase (r : phaseBuilder) (lead : Server) :
    ∃ p, r.migration lead = some p ∧
      some updateLabels ∈ p.subPhases.map Phase.executor ∧
      ((some migrateLinks ∈ p.subPhases.map Phase.executor) ↔ migrationLinksTrigger r) ∧
      ((some migrateRoles ∈ p.subPhases.map Phase.executor) ↔ migrationRolesTrigger r) ∧
      (∀ c ∈ p.subPhases, c.mode = .parallel) := by
  have hlinks : ((r.linksCount != 0 && r.trustedClustersCount == 0) = true) ↔
      migrationLinksTrigger r := by
    unfold migrationLinksTrigger
    simp
  refine ⟨_, migration_eq r lead, ?_, ?_, ?_, ?_⟩
  · rw [addParallel_subPhases, List.map_append, map_executor_map_attached]
    cases h1 : (r.linksCount != 0 && r.trustedClustersCount == 0) <;>
      cases h2 : r.needMigrateRoles <;>
        simp [h1, h2, migrationRootPhase, migrationLinksPhase, migrationLabelsPhase,
          migrationRolesPhase, rootPhase, Phase.withId, Phase.subPhases, Phase.executor]
  · rw [addParallel_subPhases, List.map_append, map_executor_map_attached, ← hlinks]
    cases h1 : (r.linksCount != 0 && r.trustedClustersCount == 0) <;>
      cases h2 : r.needMigrateRoles <;>
        simp [h1, h2, migrationRootPhase, migrationLinksPhase, migrationLabelsPhase,
          migrationRolesPhase, rootPhase, Phase.withId, Phase.subPhases, Phase.executor,
          migrateLinks, updateLabels, migrateRoles]
  · rw [addParallel_subPhases, List.map_append, map_executor_map_attached]
    unfold migrationRolesTrigger
    cases h1 : (r.linksCount != 0 && r.trustedClustersCount == 0) <;>
      cases h2 : r.needMigrateRoles <;>
        simp [h1, h2, migrationRootPhase, migrationLinksPhase, migrationLabelsPhase,
          migrationRolesPhase, rootPhase, Phase.withId, Phase.subPhases, Phase.executor,
          migrateLinks, updateLabels, migrateRoles]
  · rw [addParallel_subPhases]
    intro c hc
    rcases List.mem_append.mp hc with hc | hc
    · simp [migrationRootPhase, rootPhase, Phase.withId, Phase.subPhases] at hc
    · exact mode_of_mem_map_attached hc

/-!
## C4 — child paths under a parent are not unique in the storage sub-plan
-/

/-- A builder whose storage discovery returns two pools and two volumes. -/
def twoPoolBuilder : phaseBuilder :=
  { leadMaster := { server := { hostname := "node-1" } }
    storageComponentsDiscovered := true
    poolQuery := .ok "p1 1.7.0\np2 1.7.0"
    volumeQuery := .ok "v1 1.7.0\nv2 1.7.0" }

/-- C4: evaluating the storage-component sub-builder on a discovery result
with two pools and two volumes: every pool phase is attached under the
parent with the same path, and likewise every volume phase, so the child
paths under this single parent are not pairwise distinct. -/
theorem c4_duplicate_child_paths :
    ∃ res, twoPoolBuilder.openEBSUpgrade twoPoolBuilder.leadMaster
        (twoPoolBuilder.openEBS twoPoolBuilder.leadMaster) = .ok res ∧
      res.subPhases.map Phase.id =
        [ "/openebs/openebs-upgrade-pool", "/openebs/openebs-upgrade-pool"
        , "/openebs/openebs-upgrade-volume", "/openebs/openebs-upgrade-volume" ] ∧
      ¬ (res.subPhases.map Phase.id).Nodup := by
  refine ⟨_, rfl, by decide, by decide⟩

/-!
## C7 — empty discovery output aborts the plan
-/

/-- C7: if the discovery command output is the empty string for either
resource kind (pools or volumes), the storage sub-builder returns an error,
and the whole plan construction returns an error — no plan phase results. -/
theorem c7_empty_discovery_fails (r : phaseBuilder) (lead : UpdateServer)
    (root : Phase) (pv vv : String)
    (hp : r.poolQuery = .ok pv) (hv : r.volumeQuery = .ok vv)
    (hempty : pv = "" ∨ vv = "") :
    (∃ msg, r.openEBSUpgrade lead root = .error msg) ∧
    (r.storageComponentsDiscovered = true → ∃ msg, buildPlan r = .error msg) := by
  have key : ∀ (lm : UpdateServer) (rt : Phase),
      ∃ msg, r.openEBSUpgrade lm rt = .error msg := by
    intro lm rt
    unfold phaseBuilder.openEBSUpgrade
    rw [hp]
    by_cases hpl : (pv.length == 0) = true
    · refine ⟨"failed to get pool info", ?_⟩
      simp [hpl]
    · rcases hempty with rfl | rfl
      · simp at hpl
      · refine ⟨"failed to get pool info", ?_⟩
        simp only [hpl]
        rw [hv]
        simp
  refine ⟨key lead root, fun hd => ?_⟩
  obtain ⟨msg, hmsg⟩ := key r.leadMaster (r.openEBS r.leadMaster)
  refine ⟨msg, ?_⟩
  unfold buildPlan
  simp [hd, hmsg]

/-- C7 witness configuration: pool discovery succeeds with empty output. -/
def emptyPoolBuilder : phaseBuilder :=
  { leadMaster := { server := { hostname := "node-1" } }
    storageComponentsDiscovered := true
    poolQuery := .ok ""
    volumeQuery := .ok "v1 1.7.0" }

/-- C7 witness: with an empty pool discovery output both the storage
sub-builder and the whole plan construction fail. -/
theorem c7_witness :
    (∃ msg, emptyPoolBuilder.openEBSUpgrade emptyPoolBuilder.leadMaster
        (emptyPoolBuilder.openEBS emptyPoolBuilder.leadMaster) = .error msg) ∧
    (emptyPoolBuilder.storageComponentsDiscovered = true →
      ∃ msg, buildPlan emptyPoolBuilder = .error msg) :=
  c7_empty_discovery_fails emptyPoolBuilder emptyPoolBuilder.leadMaster
    (emptyPoolBuilder.openEBS emptyPoolBuilder.leadMaster) "" "v1 1.7.0"
    rfl rfl (Or.inl rfl)

/-!
## Counting phases by executor and payload

The statements about the master rolling upgrade count phases by their
executor and data payload (which attachment never changes).
-/

/-- A predicate on the executor and data payload of a phase. -/
def GutPred := Option String → Option PhaseData → Bool

/-- The number of phases of the tree satisfying a gut predicate. -/
def phaseCount (f : GutPred) (t : Phase) : Nat :=
  t.allPhases.countP (fun p => f p.executor p.data)

/-- The number of phases of a forest satisfying a gut predicate. -/
def phaseCountL (f : GutPred) (ps : List Phase) : Nat :=
  (allPhasesList ps).countP (fun p => f p.executor p.data)

theorem phaseCountL_nil (f : GutPred) : phaseCountL f [] = 0 := rfl

theorem phaseCountL_cons (f : GutPred) (c : Phase) (cs : List Phase) :
    phaseCountL f (c :: cs) = phaseCount f c + phaseCountL f cs := by
  simp [phaseCountL, allPhasesList, List.countP_append, phaseCount]

theorem phaseCountL_append (f : GutPred) (xs ys : List Phase) :
    phaseCountL f (xs ++ ys) = phaseCountL f xs + phaseCountL f ys := by
  simp [phaseCountL, allPhasesList_append, List.countP_append]

theorem phaseCount_eq (f : GutPred) (p : Phase) :
    phaseCount f p = (if f p.executor p.data then 1 else 0) + phaseCountL f p.subPhases := by
  cases p
  simp [phaseCount, phaseCountL, Phase.allPhases, List.countP_cons, Phase.executor,
    Phase.data, Phase.subPhases, Nat.add_comm]

theorem phaseCount_leaf (f : GutPred) (i d : String) (e : Option String)
    (dt : Option PhaseData) (rq : List DepRef) (m : AttachMode) :
    phaseCount f (.node i d e dt rq m []) = if f e dt then 1 else 0 := by
  rw [phaseCount_eq]
  simp [Phase.executor, Phase.data, Phase.subPhases, phaseCountL_nil]

theorem phaseCount_attached (f : GutPred) (pid : String) (m : AttachMode) (c : Phase) :
    phaseCount f (attached pid m c) = phaseCount f c := by
  cases c; rfl

theorem phaseCountL_map_attached (f : GutPred) (pid : String) (m : AttachMode)
    (cs : List Phase) :
    phaseCountL f (cs.map (attached pid m)) = phaseCountL f cs := by
  induction cs with
  | nil => rfl
  | cons c cs ih => simp [phaseCountL_cons, phaseCount_attached, ih]

theorem phaseCount_withPhases (f : GutPred) (p : Phase) (ps : List Phase) :
    phaseCount f (p.withPhases ps) =
      (if f p.executor p.data then 1 else 0) + phaseCountL f ps := by
  rw [phaseCount_eq]
  simp [Phase.executor_withPhases, Phase.data_withPhases, Phase.subPhases_withPhases]

theorem phaseCount_addChildren (f : GutPred) (m : AttachMode) (par : Phase)
    (cs : List Phase) :
    phaseCount f (addChildren m par cs) = phaseCount f par + phaseCountL f cs := by
  rw [addChildren_eq, phaseCount_withPhases, phaseCountL_append,
    phaseCountL_map_attached, phaseCount_eq]
  omega

/-!
## C6 — payload parsing of the component-upgrade constructors
-/

/-- C6: the constructors perform no token-count validation.  A payload with
fewer than three space-separated tokens crashes with an index-out-of-range
panic instead of returning an error, and a payload with more than three
tokens is silently truncated to the first three — contradicting the claim
that any token count other than three yields a hard failure and never a
truncation or crash (the three-token case itself parses as claimed). -/
theorem c6_payload_parse_behavior :
    NewPhaseUpgradePool "pool-a 1.7.0" =
      .crashed "runtime error: index out of range" ∧
    NewPhaseUpgradeVolume "pool-a 1.7.0" =
      .crashed "runtime error: index out of range" ∧
    NewPhaseUpgradePool "pool-a 1.7.0 2.2.0 extra" =
      .ok { pool := "pool-a", fromVersion := "1.7.0", toVersion := "2.2.0" } ∧
    NewPhaseUpgradeVolume "vol-a 1.7.0 2.2.0 extra" =
      .ok { volume := "vol-a", fromVersion := "1.7.0", toVersion := "2.2.0" } ∧
    NewPhaseUpgradePool "pool-a 1.7.0 2.2.0" =
      .ok { pool := "pool-a", fromVersion := "1.7.0", toVersion := "2.2.0" } := by
  refine ⟨?_, ?_, ?_, ?_, ?_⟩ <;> rfl

/-!
## C9 — the failed-pod verification after the job wait
-/

/-- C9: `execUpgradeJob` never reports success on the wait signal alone —
success requires the job re-fetch to succeed and report zero failed pods —
and whenever all collaborator steps up to and including the wait and the
re-fetch succeed but the job reports a nonzero failed-pod count, the call
fails with the failed-pods error. -/
theorem c9_failed_pods_fail_phase (e : JobEnv) :
    ((execUpgradeJob e).2 = none → e.getErr = none ∧ e.job.statusFailed = 0) ∧
    (e.renderErr = none → e.writeErr = none → e.applyErr = none →
      e.runnerErr = none → e.streamErr = none → e.getErr = none →
      e.job.statusFailed ≠ 0 →
      execUpgradeJob e = (e.logs, some "upgrade job has failed pods")) := by
  unfold execUpgradeJob
  cases hre : e.renderErr <;> cases hw : e.writeErr <;> cases ha : e.applyErr <;>
    cases hru : e.runnerErr <;> cases hs : e.streamErr <;> cases hg : e.getErr <;>
      by_cases hj : e.job.statusFailed = 0 <;> simp_all

/-- C9 witness: a run where every step succeeds but the re-fetched job
reports one failed pod fails with the failed-pods error. -/
theorem c9_witness :
    execUpgradeJob { job := { statusFailed := 1 } } =
      ("", some "upgrade job has failed pods") :=
  (c9_failed_pods_fail_phase { job := { statusFailed := 1 } }).2
    rfl rfl rfl rfl rfl rfl (by decide)

/-!
## C10 — `shouldUpdateEtcd` and the missing etcd version label
-/

/-- C10: `shouldUpdateEtcd` reports that an upgrade is needed whenever the
installed runtime package's manifest carries no `version-etcd` label at all
(no installed version can be determined, and the reported installed version
string is empty), in addition to the case where the installed etcd version
is strictly less than the update's etcd version. -/
theorem c10_shouldUpdateEtcd_update_conditions (p : EtcdPlanConfig)
    (rp ru : Locator) (m : PkgManifest) (vu : SemVer)
    (hrp : p.installedDefaultRuntimePackage = .ok rp)
    (hm : p.packages.lookup rp = some m)
    (hru : p.updateDefaultRuntimePackage = .ok ru)
    (hvu : getEtcdVersion "version-etcd" ru p.packages = .ok vu) :
    ((∀ l ∈ m.labels, l.name ≠ "version-etcd") →
      shouldUpdateEtcd p = .ok (true, "", vu.render)) ∧
    (∀ vi : SemVer, getEtcdVersion "version-etcd" rp p.packages = .ok vi →
      vi.ltv vu = true →
      shouldUpdateEtcd p = .ok (true, vi.render, vu.render)) := by
  have h0 : shouldUpdateEtcd p = shouldUpdateEtcdFrom p rp := by
    unfold shouldUpdateEtcd
    rw [hrp]
  constructor
  · intro hnolabel
    have hfind : m.labels.find? (fun l => l.name == "version-etcd") = none := by
      apply List.find?_eq_none.mpr
      intro l hl
      simp [hnolabel l hl]
    have hstep : getEtcdVersion "version-etcd" rp p.packages =
        .error (.notFound ("package manifest for " ++ rp.name ++
          " does not have label " ++ "version-etcd")) := by
      unfold getEtcdVersion
      simp only [hm, hfind]
    rw [h0]
    unfold shouldUpdateEtcdFrom
    simp only [hstep, hru, hvu]
    simp
  · intro vi hvi hlt
    rw [h0]
    unfold shouldUpdateEtcdFrom
    simp only [hvi, hru, hvu]
    simp [hlt]

/-- A concrete package universe for the C10 witness: the installed runtime
package carries no etcd version label, the update's carries `v3.3.11`. -/
def c10Packages : List (Locator × PkgManifest) :=
  [ ({ name := "planet", version := "1.0.0" }, { labels := [] })
  , ({ name := "planet", version := "2.0.0" },
      { labels := [{ name := "version-etcd", value := "v3.3.11" }] }) ]

/-- The C10 witness configuration. -/
def c10Config : EtcdPlanConfig :=
  { installedDefaultRuntimePackage := .ok { name := "planet", version := "1.0.0" }
    installedLegacyRuntimePackage := none
    updateDefaultRuntimePackage := .ok { name := "planet", version := "2.0.0" }
    packages := c10Packages }

/-- C10 witness: with no etcd version label on the installed runtime
package, `shouldUpdateEtcd` reports that the upgrade is needed. -/
theorem c10_witness :
    shouldUpdateEtcd c10Config = .ok (true, "", "3.3.11") :=
  (c10_shouldUpdateEtcd_update_conditions c10Config
      { name := "planet", version := "1.0.0" }
      { name := "planet", version := "2.0.0" }
      { labels := [] } ⟨3, 3, 11⟩ rfl (by rfl) rfl (by rfl)).1
    (by decide)

/-!
## C2 — leadership choreography of the master rolling upgrade
-/

/-- Phases that change leader-election state. -/
def electionPred : GutPred := fun e _ => e == some electionStatus

/-- Endpoint-wait phases. -/
def endpointsPred : GutPred := fun e _ => e == some endpoints

/-- A leadership-stepdown phase for the given lead node: an election phase
that disables exactly the lead and enables nothing. -/
def stepdownPred (lead : UpdateServer) : GutPred := fun e dt =>
  e == some electionStatus &&
    (dt.bind PhaseData.electionChange ==
      some { enableServers := [], disableServers := [lead.server] })

/-- The root grouping phase of the masters sub-plan. -/
def mastersRoot : Phase :=
  rootPhase (.node "masters" "Update master nodes" none none [] .sequential [])

/-- The lead master's node phase of the masters sub-plan, with its children
(as built before attachment). -/
def mastersLeadNode (lead : UpdateServer) (others : List UpdateServer)
    (st : Bool) : Phase :=
  let node0 := nodePhase lead.server mastersRoot "Update system software on master node"
  if others.length != 0 then
    let node1 := addSequential node0
      [ .node "kubelet-permissions"
          ("Add permissions to kubelet on " ++ lead.hostname)
          (some kubeletPermissions)
          (some { server := some lead.server }) [] .sequential [] ]
    let node2 := addSequential node1
      [ setLeaderElection
          { id := "stepdown"
            description := "Step down " ++ lead.hostname ++ " as Kubernetes leader"
            disable := serversToStorage [lead] }
          lead ]
    let electionChanges : ElectionChanges :=
      { description := "Make node " ++ lead.hostname ++ " Kubernetes leader"
        enable := serversToStorage [lead]
        disable := serversToStorage others }
    addSequential node2 (commonNode lead lead st false electionChanges)
  else
    addSequential node0 (commonNode lead lead st true {})

/-- One non-lead master's node phase (as built before attachment), as a
function of the parent path. -/
def mastersOtherNodeF (lead : UpdateServer) (st : Bool) (pid : String)
    (server : UpdateServer) : Phase :=
  addSequential
    (.node (pid ++ "/" ++ server.hostname)
      ("Update system software on master node" ++ " " ++ server.hostname)
      none none [] .sequential [])
    (commonNode server lead st true
      { description := "Enable leader election on node " ++ server.hostname
        enable := serversToStorage [server] })

theorem flatten_map_singleton {α β : Type} (g : α → β) (l : List α) :
    (l.map (fun a => [g a])).flatten = l.map g := by
  induction l <;> simp_all

/-- The masters sub-plan is its root with the lead node first and one node
per other master after it, all attached sequentially. -/
theorem masters_eq (lead : UpdateServer) (others : List UpdateServer) (st : Bool) :
    masters lead others st = Phase.node "/masters" "Update master nodes" none none []
      .sequential
      (attached "/masters" .sequential (mastersLeadNode lead others st) ::
        others.map (fun s =>
          attached "/masters" .sequential (mastersOtherNodeF lead st "/masters" s))) := by
  show others.foldl
      (fun rt server => addChildren .sequential rt [mastersOtherNodeF lead st rt.id server])
      (addChildren .sequential mastersRoot [mastersLeadNode lead others st]) = _
  rw [foldl_attach_shape .sequential (fun pid s => [mastersOtherNodeF lead st pid s])
    (fun rt server => addChildren .sequential rt [mastersOtherNodeF lead st rt.id server])
    (fun rt a => rfl) others
    (addChildren .sequential mastersRoot [mastersLeadNode lead others st])]
  rw [addChildren_eq]
  simp only [Phase.withPhases_withPhases, Phase.id_withPhases, Phase.subPhases_withPhases]
  simp [mastersRoot, rootPhase, Phase.withId, Phase.subPhases, Phase.id,
    Phase.withPhases, List.flatMap, flatten_map_singleton]

theorem commonNode_count_election (s lm : UpdateServer) (st wfe : Bool)
    (ec : ElectionChanges) :
    phaseCountL electionPred (commonNode s lm st wfe ec) =
      if ec.shouldAddPhase then 1 else 0 := by
  cases h : ec.shouldAddPhase <;> cases st <;> cases wfe <;>
    simp [commonNode, h, setLeaderElection, phaseCountL_cons, phaseCountL_nil,
      phaseCount_leaf, electionPred, drainNode, updateSystem, nodeHealth,
      taintNode, uncordonNode, endpoints, untaintNode, electionStatus]

theorem commonNode_count_endpoints (s lm : UpdateServer) (st wfe : Bool)
    (ec : ElectionChanges) :
    phaseCountL endpointsPred (commonNode s lm st wfe ec) =
      if wfe then 1 else 0 := by
  cases h : ec.shouldAddPhase <;> cases st <;> cases wfe <;>
    simp [commonNode, h, setLeaderElection, phaseCountL_cons, phaseCountL_nil,
      phaseCount_leaf, endpointsPred, drainNode, updateSystem, nodeHealth,
      taintNode, uncordonNode, endpoints, untaintNode, electionStatus]

theorem commonNode_count_stepdown_zero (lead : UpdateServer) (s lm : UpdateServer)
    (st wfe : Bool) (ec : ElectionChanges) (h : ec.enable ≠ []) :
    phaseCountL (stepdownPred lead) (commonNode s lm st wfe ec) = 0 := by
  obtain ⟨a, t, hat⟩ := List.exists_cons_of_ne_nil h
  cases hsh : ec.shouldAddPhase <;> cases st <;> cases wfe <;>
    simp [commonNode, hsh, setLeaderElection, phaseCountL_cons, phaseCountL_nil,
      phaseCount_leaf, stepdownPred, drainNode, updateSystem, nodeHealth,
      taintNode, uncordonNode, endpoints, untaintNode, electionStatus, hat]

theorem emptyElectionChanges_shouldAddPhase :
    (({} : ElectionChanges)).shouldAddPhase = false := rfl

theorem nodePhase_count (f : GutPred) (s : Server) (parent : Phase) (d : String)
    (hf : f none none = false) : phaseCount f (nodePhase s parent d) = 0 := by
  simp [nodePhase, phaseCount_leaf, hf]

theorem mastersLeadNode_single_counts (lead : UpdateServer) (st : Bool) :
    phaseCount electionPred (mastersLeadNode lead [] st) = 0 ∧
    phaseCount endpointsPred (mastersLeadNode lead [] st) = 1 := by
  unfold mastersLeadNode
  simp only [List.length_nil]
  constructor
  · rw [if_neg (by decide)]
    rw [addSequential, phaseCount_addChildren, commonNode_count_election]
    rw [nodePhase_count _ _ _ _ rfl]
    rfl
  · rw [if_neg (by decide)]
    rw [addSequential, phaseCount_addChildren, commonNode_count_endpoints]
    rw [nodePhase_count _ _ _ _ rfl]
    rfl

theorem mastersLeadNode_multi_counts (lead : UpdateServer)
    (others : List UpdateServer) (st : Bool) (h : others ≠ []) :
    phaseCount (stepdownPred lead) (mastersLeadNode lead others st) = 1 ∧
    phaseCount endpointsPred (mastersLeadNode lead others st) = 0 := by
  have hlen : (others.length != 0) = true := by
    cases others with
    | nil => exact absurd rfl h
    | cons a t => simp
  unfold mastersLeadNode
  rw [if_pos hlen]
  constructor
  · rw [addSequential, phaseCount_addChildren,
      commonNode_count_stepdown_zero lead lead lead st false _ (by simp [serversToStorage]),
      addSequential, phaseCount_addChildren,
      addSequential, phaseCount_addChildren,
      nodePhase_count _ _ _ _ rfl]
    simp [phaseCountL_cons, phaseCountL_nil, phaseCount_leaf, stepdownPred,
      setLeaderElection, ElectionChanges.phaseID, Phase.dataServer,
      kubeletPermissions, electionStatus, serversToStorage]
  · rw [addSequential, phaseCount_addChildren, commonNode_count_endpoints,
      addSequential, phaseCount_addChildren,
      addSequential, phaseCount_addChildren,
      nodePhase_count _ _ _ _ rfl]
    simp [phaseCountL_cons, phaseCountL_nil, phaseCount_leaf, endpointsPred,
      setLeaderElection, ElectionChanges.phaseID,
      kubeletPermissions, electionStatus, endpoints]

theorem mastersOtherNode_stepdown_count (lead : UpdateServer) (st : Bool)
    (pid : String) (s : UpdateServer) :
    phaseCount (stepdownPred lead) (mastersOtherNodeF lead st pid s) = 0 := by
  unfold mastersOtherNodeF
  rw [addSequential, phaseCount_addChildren,
    commonNode_count_stepdown_zero lead s lead st true _ (by simp [serversToStorage]),
    phaseCount_leaf]
  rfl

theorem phaseCountL_map_zero {α : Type} (f : GutPred) (g : α → Phase) (l : List α)
    (h : ∀ a ∈ l, phaseCount f (g a) = 0) : phaseCountL f (l.map g) = 0 := by
  induction l with
  | nil => rfl
  | cons a t ih =>
    rw [List.map_cons, phaseCountL_cons, h a (List.mem_cons_self ..), ih]
    intro b hb
    exact h b (List.mem_cons_of_mem _ hb)

/-- Whether a phase re-enables leader election on the given lead node. -/
def enablesLead (lead : UpdateServer) (p : Phase) : Bool :=
  match p.dataElection with
  | some ec => decide (lead.server ∈ ec.enableServers)
  | none => false

/-- The lead node of the C2 instances. -/
def lead0 : UpdateServer := { server := { hostname := "node-1" } }

/-- A second master for the C2 witness. -/
def other0 : UpdateServer := { server := { hostname := "node-2" } }

/-- C2 counterexample: in the plan built for exactly one master node, no
phase of the masters sub-plan touches leader election at all — in
particular no phase re-enables leadership on the lead "at the end", so the
claim's single-master leadership conjunct is false on the code. -/
theorem c2_counterexample :
    ¬ ∃ p ∈ (masters lead0 [] true).allPhases,
        p.executor = some electionStatus ∧ enablesLead lead0 p = true := by
  decide

/-- C2 amended: with exactly one master, the masters sub-plan contains no
leader-election phase at all (neither stepdown nor re-enable) and exactly
one endpoint-wait phase (the lead waits for endpoints); with more than one
master, exactly one leadership-stepdown phase exists — an election phase
disabling exactly the lead — and the lead node's sequence (the first child)
contains no endpoint-wait phase. -/
theorem c2_masters_leadership (lead : UpdateServer) (others : List UpdateServer)
    (st : Bool) :
    (others = [] →
      phaseCount electionPred (masters lead others st) = 0 ∧
      phaseCount endpointsPred (masters lead others st) = 1) ∧
    (others ≠ [] →
      phaseCount (stepdownPred lead) (masters lead others st) = 1 ∧
      ∃ ln, (masters lead others st).subPhases.head? = some ln ∧
        phaseCount endpointsPred ln = 0) := by
  constructor
  · rintro rfl
    rw [masters_eq]
    constructor
    · rw [phaseCount_eq]
      simp only [Phase.executor, Phase.data, Phase.subPhases, List.map_nil,
        phaseCountL_cons, phaseCountL_nil, phaseCount_attached]
      rw [(mastersLeadNode_single_counts lead st).1]
      rfl
    · rw [phaseCount_eq]
      simp only [Phase.executor, Phase.data, Phase.subPhases, List.map_nil,
        phaseCountL_cons, phaseCountL_nil, phaseCount_attached]
      rw [(mastersLeadNode_single_counts lead st).2]
      rfl
  · intro h
    rw [masters_eq]
    constructor
    · rw [phaseCount_eq]
      simp only [Phase.executor, Phase.data, Phase.subPhases, phaseCountL_cons,
        phaseCount_attached]
      rw [(mastersLeadNode_multi_counts lead others st h).1]
      rw [phaseCountL_map_zero _ _ _ (fun a ha => by
        rw [phaseCount_attached]
        exact mastersOtherNode_stepdown_count lead st "/masters" a)]
      rfl
    · refine ⟨attached "/masters" .sequential (mastersLeadNode lead others st), rfl, ?_⟩
      rw [phaseCount_attached]
      exact (mastersLeadNode_multi_counts lead others st h).2

/-- C2 witness: the amended claim evaluated at a one-master and a
two-master cluster. -/
theorem c2_witness :
    (phaseCount electionPred (masters lead0 [] true) = 0 ∧
      phaseCount endpointsPred (masters lead0 [] true) = 1) ∧
    (phaseCount (stepdownPred lead0) (masters lead0 [other0] true) = 1 ∧
      ∃ ln, (masters lead0 [other0] true).subPhases.head? = some ln ∧
        phaseCount endpointsPred ln = 0) :=
  ⟨(c2_masters_leadership lead0 [] true).1 rfl,
    (c2_masters_leadership lead0 [other0] true).2 (by decide)⟩

/-!
## C5 — structure of the etcd sub-plan
-/

theorem foldl_addParallel_shape {α : Type} (c : String → α → Phase) (l : List α)
    (par : Phase) :
    l.foldl (fun st a => addParallel st [c st.id a]) par =
      par.withPhases (par.subPhases ++
        l.map (fun a => attached par.id .parallel (c par.id a))) := by
  have h := foldl_attach_shape .parallel (fun pid a => [c pid a])
    (fun st a => addParallel st [c st.id a]) (fun rt a => rfl) l par
  rw [h]
  simp [List.flatMap, flatten_map_singleton]

theorem foldl_awd_shape {α : Type} (d : α → DepRef) (c : String → α → Phase)
    (l : List α) (par : Phase) :
    l.foldl (fun st a => addWithDependency (d a) st (c st.id a)) par =
      par.withPhases (par.subPhases ++
        l.map (fun a => attached par.id .depGated ((c par.id a).addRequire (d a)))) := by
  have h := foldl_attach_shape .depGated (fun pid a => [(c pid a).addRequire (d a)])
    (fun st a => addWithDependency (d a) st (c st.id a)) (fun rt a => rfl) l par
  rw [h]
  simp [List.flatMap, flatten_map_singleton]

/-- The empty backup stage node. -/
def bkStage0 : Phase := .node "/etcd/backup" "Backup etcd data" none none [] .sequential []

/-- The attached backup phase of one master. -/
def bkChild (s : Server) : Phase := attached "/etcd/backup" .parallel (etcdBackupNode s bkStage0)

/-- The fully built backup stage. -/
def bkStage (lead : Server) (others : List Server) : Phase :=
  bkStage0.withPhases ((lead :: others).map (fun s => bkChild s))

theorem etcdBackupStage_eq (lead : Server) (others : List Server) (root : Phase)
    (h : root.id = "/etcd") :
    etcdBackupStage lead others root = bkStage lead others := by
  have hseg : root.childLiteral "backup" = "/etcd/backup" := by
    rw [Phase.childLiteral, h]
    decide
  unfold etcdBackupStage
  rw [hseg]
  show others.foldl
      (fun st server => addParallel st
        [Phase.node (st.id ++ "/" ++ server.hostname)
          ("Backup etcd on node " ++ server.hostname) (some updateEtcdBackup)
          (some { server := some server }) [] .sequential []])
      (addParallel bkStage0 [etcdBackupNode lead bkStage0]) = _
  rw [foldl_addParallel_shape (fun pid server =>
    Phase.node (pid ++ "/" ++ server.hostname)
      ("Backup etcd on node " ++ server.hostname) (some updateEtcdBackup)
      (some { server := some server }) [] .sequential [])]
  rw [addParallel, addChildren_eq]
  simp only [Phase.withPhases_withPhases, Phase.id_withPhases, Phase.subPhases_withPhases]
  rw [bkStage]
  simp [bkStage0, bkChild, Phase.subPhases, Phase.id, List.map_cons, etcdBackupNode,
    Phase.childLiteral]

theorem addWithDependency_eq (d : DepRef) (par c : Phase) :
    addWithDependency d par c =
      par.withPhases (par.subPhases ++ [attached par.id .depGated (c.addRequire d)]) := rfl

/-- The empty shutdown stage node. -/
def sdStage0 : Phase := .node "/etcd/shutdown" "Shutdown etcd cluster" none none [] .sequential []

/-- The attached shutdown phase of one master, dependency-gated on that
same master's backup phase. -/
def sdChild (s : Server) (isLeader : Bool) : Phase :=
  attached "/etcd/shutdown" .depGated
    ((etcdShutdownNode s sdStage0 isLeader).addRequire
      { path := "/etcd/backup", target := some s.hostname })

/-- The fully built shutdown stage. -/
def sdStage (lead : Server) (others : List Server) : Phase :=
  sdStage0.withPhases (sdChild lead true :: others.map (fun s => sdChild s false))

theorem etcdShutdownStage_eq (lead : Server) (others : List Server)
    (backupEtcd root : Phase) (h : root.id = "/etcd")
    (hb : backupEtcd.id = "/etcd/backup") :
    etcdShutdownStage lead others backupEtcd root = sdStage lead others := by
  have hseg : root.childLiteral "shutdown" = "/etcd/shutdown" := by
    rw [Phase.childLiteral, h]
    decide
  unfold etcdShutdownStage
  rw [hseg]
  simp only [DependencyForServer, hb]
  show others.foldl
      (fun st server => addWithDependency { path := "/etcd/backup", target := some server.hostname } st
        (Phase.node (st.id ++ "/" ++ server.hostname)
          ("Shutdown etcd on node " ++ server.hostname) (some updateEtcdShutdown)
          (some { server := some server, data := some (if false then "true" else "false") })
          [] .sequential []))
      (addWithDependency { path := "/etcd/backup", target := some lead.hostname } sdStage0
        (etcdShutdownNode lead sdStage0 true)) = _
  rw [foldl_awd_shape
    (fun server : Server => ({ path := "/etcd/backup", target := some server.hostname } : DepRef))
    (fun pid server =>
      Phase.node (pid ++ "/" ++ server.hostname)
        ("Shutdown etcd on node " ++ server.hostname) (some updateEtcdShutdown)
        (some { server := some server, data := some (if false then "true" else "false") })
        [] .sequential [])]
  rw [addWithDependency_eq]
  simp only [Phase.withPhases_withPhases, Phase.id_withPhases, Phase.subPhases_withPhases]
  rw [sdStage]
  simp [sdStage0, sdChild, Phase.subPhases, Phase.id, List.map_cons, etcdShutdownNode,
    Phase.childLiteral]

/-- The empty upgrade stage node. -/
def upStage0 : Phase := .node "/etcd/upgrade" "Upgrade etcd servers" none none [] .sequential []

/-- The attached upgrade phase of one master, dependency-gated on that same
master's shutdown phase. -/
def upChild (s : Server) : Phase :=
  attached "/etcd/upgrade" .depGated
    ((etcdUpgrade s upStage0).addRequire
      { path := "/etcd/shutdown", target := some s.hostname })

/-- The fully built upgrade stage. -/
def upStage (lead : Server) (others : List Server) : Phase :=
  upStage0.withPhases ((lead :: others).map (fun s => upChild s))

theorem etcdUpgradeStage_eq (lead : Server) (others : List Server)
    (shutdownEtcd root : Phase) (h : root.id = "/etcd")
    (hs : shutdownEtcd.id = "/etcd/shutdown") :
    etcdUpgradeStage lead others shutdownEtcd root = upStage lead others := by
  have hseg : root.childLiteral "upgrade" = "/etcd/upgrade" := by
    rw [Phase.childLiteral, h]
    decide
  unfold etcdUpgradeStage
  rw [hseg]
  simp only [DependencyForServer, hs]
  show others.foldl
      (fun st server => addWithDependency { path := "/etcd/shutdown", target := some server.hostname } st
        (Phase.node (st.id ++ "/" ++ server.hostname)
          ("Upgrade etcd on node " ++ server.hostname) (some updateEtcdMaster)
          (some { server := some server }) [] .sequential []))
      (addWithDependency { path := "/etcd/shutdown", target := some lead.hostname } upStage0
        (etcdUpgrade lead upStage0)) = _
  rw [foldl_awd_shape
    (fun server : Server => ({ path := "/etcd/shutdown", target := some server.hostname } : DepRef))
    (fun pid server =>
      Phase.node (pid ++ "/" ++ server.hostname)
        ("Upgrade etcd on node " ++ server.hostname) (some updateEtcdMaster)
        (some { server := some server }) [] .sequential [])]
  rw [addWithDependency_eq]
  simp only [Phase.withPhases_withPhases, Phase.id_withPhases, Phase.subPhases_withPhases]
  rw [upStage]
  simp [upStage0, upChild, Phase.subPhases, Phase.id, List.map_cons, etcdUpgrade,
    Phase.childLiteral]

/-- The empty restart stage node. -/
def rsStage0 : Phase := .node "/etcd/restart" "Restart etcd servers" none none [] .sequential []

/-- The attached restart phase of the lead master, dependency-gated on the
restore phase for the lead. -/
def rsLeadChild (lead : Server) : Phase :=
  attached "/etcd/restart" .depGated
    ((etcdRestart lead lead rsStage0).addRequire
      { path := "/etcd/restore", target := some lead.hostname })

/-- The attached restart phase of one other master, dependency-gated on
the upgrade stage for that master. -/
def rsOtherChild (lead s : Server) : Phase :=
  attached "/etcd/restart" .depGated
    ((etcdRestart s lead rsStage0).addRequire
      { path := "/etcd/upgrade", target := some s.hostname })

/-- The attached parallel gravity-site restart phase on the lead. -/
def rsGravityChild (lead : Server) : Phase :=
  attached "/etcd/restart" .parallel
    (.node ("/etcd/restart" ++ "/" ++ gravityServiceName)
      ("Restart " ++ gravityServiceName ++ " service")
      (some updateEtcdRestartGravity)
      (some { server := some lead }) [] .sequential [])

/-- The fully built restart stage. -/
def rsStage (lead : Server) (others : List Server) : Phase :=
  rsStage0.withPhases
    ((rsLeadChild lead :: others.map (fun s => rsOtherChild lead s)) ++ [rsGravityChild lead])

theorem etcdRestartStage_eq (lead : Server) (others : List Server)
    (restoreData upgradeServers root : Phase) (h : root.id = "/etcd")
    (hr : restoreData.id = "/etcd/restore")
    (hu : upgradeServers.id = "/etcd/upgrade") :
    etcdRestartStage lead others restoreData upgradeServers root = rsStage lead others := by
  have hseg : root.childLiteral "restart" = "/etcd/restart" := by
    rw [Phase.childLiteral, h]
    decide
  unfold etcdRestartStage
  rw [hseg]
  simp only [DependencyForServer, hr, hu]
  show addParallel
      (others.foldl
        (fun st server => addWithDependency { path := "/etcd/upgrade", target := some server.hostname } st
          (Phase.node (st.id ++ "/" ++ server.hostname)
            ("Restart etcd on node " ++ server.hostname) (some updateEtcdRestart)
            (some { server := some server, master := some lead }) [] .sequential []))
        (addWithDependency { path := "/etcd/restore", target := some lead.hostname } rsStage0
          (etcdRestart lead lead rsStage0)))
      [ Phase.node
          ((others.foldl
            (fun st server => addWithDependency { path := "/etcd/upgrade", target := some server.hostname } st
              (Phase.node (st.id ++ "/" ++ server.hostname)
                ("Restart etcd on node " ++ server.hostname) (some updateEtcdRestart)
                (some { server := some server, master := some lead }) [] .sequential []))
            (addWithDependency { path := "/etcd/restore", target := some lead.hostname } rsStage0
              (etcdRestart lead lead rsStage0))).id ++ "/" ++ gravityServiceName)
          ("Restart " ++ gravityServiceName ++ " service")
          (some updateEtcdRestartGravity)
          (some { server := some lead }) [] .sequential [] ] = _
  rw [foldl_awd_shape
    (fun server : Server => ({ path := "/etcd/upgrade", target := some server.hostname } : DepRef))
    (fun pid server =>
      Phase.node (pid ++ "/" ++ server.hostname)
        ("Restart etcd on node " ++ server.hostname) (some updateEtcdRestart)
        (some { server := some server, master := some lead }) [] .sequential [])]
  rw [addWithDependency_eq, addParallel, addChildren_eq]
  simp only [Phase.withPhases_withPhases, Phase.id_withPhases, Phase.subPhases_withPhases]
  rw [rsStage]
  simp [rsStage0, rsLeadChild, rsOtherChild, rsGravityChild, Phase.subPhases, Phase.id,
    List.map_cons, etcdRestart, Phase.childLiteral]

theorem Phase.id_withId (p : Phase) (i : String) : (p.withId i).id = i := by
  cases p; rfl

theorem slashEtcdAppend : ("/" : String) ++ "etcd" = "/etcd" := by decide

theorem etcdRestoreAppend : ("/etcd" : String) ++ "/" ++ "restore" = "/etcd/restore" := by
  decide

/-- The restore phase with its literal path. -/
def restoreP (lead : Server) : Phase :=
  .node "/etcd/restore" "Restore etcd data from backup" (some updateEtcdRestore)
    (some { server := some lead }) [] .sequential []

/-- The etcd sub-plan in explicit form: the backup stage attached
sequentially, the shutdown and upgrade stages attached with plain `Add`,
the restore phase attached sequentially (making it follow the upgrade
stage, the previous sibling), and the restart stage attached with plain
`Add`. -/
theorem etcdPlan_eq (lead : Server) (others workers : List Server) (cv dv : String) :
    etcdPlan lead others workers cv dv =
      Phase.node "/etcd"
        (if cv == "" then "Upgrade etcd to " ++ dv
         else "Upgrade etcd " ++ cv ++ " to " ++ dv) none none [] .sequential
        [ attached "/etcd" .sequential (bkStage lead others)
        , attached "/etcd" .parallel (sdStage lead others)
        , attached "/etcd" .parallel (upStage lead others)
        , attached "/etcd" .sequential (restoreP lead)
        , attached "/etcd" .parallel (rsStage lead others) ] := by
  simp only [etcdPlan]
  rw [etcdBackupStage_eq, etcdShutdownStage_eq, etcdUpgradeStage_eq, etcdRestartStage_eq]
  · simp [addSequential, addParallel, addChildren_eq, Phase.withPhases_withPhases,
      Phase.id_withPhases, Phase.subPhases_withPhases, rootPhase, Phase.withId,
      etcdPhaseName, etcdRestoreData, Phase.childLiteral, Phase.id, Phase.subPhases,
      slashEtcdAppend, etcdRestoreAppend, restoreP, Phase.withPhases]
  all_goals
    simp [addSequential, addParallel, addChildren_eq, rootPhase, Phase.withId,
      Phase.withPhases, bkStage, sdStage, upStage, rsStage, bkStage0, sdStage0,
      upStage0, rsStage0, etcdRestoreData, Phase.childLiteral, etcdPhaseName,
      Phase.id, Phase.subPhases, slashEtcdAppend, etcdRestoreAppend]

theorem Phase.addRequire_requires (p : Phase) (d : DepRef) :
    (p.addRequire d).requires = p.requires ++ [d] := by cases p; rfl

theorem Phase.addRequire_data (p : Phase) (d : DepRef) :
    (p.addRequire d).data = p.data := by cases p; rfl

theorem Phase.addRequire_subPhases (p : Phase) (d : DepRef) :
    (p.addRequire d).subPhases = p.subPhases := by cases p; rfl

theorem Phase.addRequire_executor (p : Phase) (d : DepRef) :
    (p.addRequire d).executor = p.executor := by cases p; rfl

theorem Phase.id_node (i d : String) (e : Option String) (dt : Option PhaseData)
    (r : List DepRef) (m : AttachMode) (ps : List Phase) :
    (Phase.node i d e dt r m ps).id = i := rfl

theorem Phase.executor_node (i d : String) (e : Option String) (dt : Option PhaseData)
    (r : List DepRef) (m : AttachMode) (ps : List Phase) :
    (Phase.node i d e dt r m ps).executor = e := rfl

theorem Phase.data_node (i d : String) (e : Option String) (dt : Option PhaseData)
    (r : List DepRef) (m : AttachMode) (ps : List Phase) :
    (Phase.node i d e dt r m ps).data = dt := rfl

theorem Phase.requires_node (i d : String) (e : Option String) (dt : Option PhaseData)
    (r : List DepRef) (m : AttachMode) (ps : List Phase) :
    (Phase.node i d e dt r m ps).requires = r := rfl

theorem Phase.subPhases_node (i d : String) (e : Option String) (dt : Option PhaseData)
    (r : List DepRef) (m : AttachMode) (ps : List Phase) :
    (Phase.node i d e dt r m ps).subPhases = ps := rfl

theorem bkStage_id (lead : Server) (others : List Server) :
    (bkStage lead others).id = "/etcd/backup" := by
  rw [bkStage, Phase.id_withPhases]; rfl

theorem sdStage_id (lead : Server) (others : List Server) :
    (sdStage lead others).id = "/etcd/shutdown" := by
  rw [sdStage, Phase.id_withPhases]; rfl

theorem upStage_id (lead : Server) (others : List Server) :
    (upStage lead others).id = "/etcd/upgrade" := by
  rw [upStage, Phase.id_withPhases]; rfl

theorem rsStage_id (lead : Server) (others : List Server) :
    (rsStage lead others).id = "/etcd/restart" := by
  rw [rsStage, Phase.id_withPhases]; rfl

theorem attached_id_abs (pid : String) (m : AttachMode) (c : Phase)
    (h : absPath c.id = true) : (attached pid m c).id = c.id := by
  cases c
  simp only [Phase.id_node] at h
  simp [attached, Phase.withId, Phase.withMode, Phase.id_node, h]

/-- C5 amended: the etcd sub-plan has exactly the five stages backup,
shutdown, upgrade, restore, restart in tree order; each master's shutdown
phase carries exactly one dependency reference — the backup stage scoped to
that same master — and each master's upgrade phase exactly one — the
shutdown stage scoped to that same master; the restore phase is a single
lead-only phase attached sequentially after the upgrade stage (its gate is
the previous sibling, the upgrade stage), carrying no dependency reference
of its own; the lead's restart phase is gated on the restore phase scoped
to the lead (not on its own upgrade phase), every other master's restart on
the upgrade stage scoped to that master, and one extra parallel phase
restarts the gravity-site service on the lead. -/
theorem c5_etcd_structure (lead : Server) (others workers : List Server)
    (cv dv : String) :
    ∃ bk sd up re rs,
      (etcdPlan lead others workers cv dv).subPhases = [bk, sd, up, re, rs] ∧
      bk.id = "/etcd/backup" ∧ sd.id = "/etcd/shutdown" ∧
      up.id = "/etcd/upgrade" ∧ re.id = "/etcd/restore" ∧ rs.id = "/etcd/restart" ∧
      bk.subPhases.map (fun c => (c.dataServer, c.requires, c.mode)) =
        (lead :: others).map (fun s => (some s, ([] : List DepRef), AttachMode.parallel)) ∧
      sd.subPhases.map (fun c => (c.dataServer, c.requires)) =
        (lead :: others).map (fun s =>
          (some s, [({ path := "/etcd/backup", target := some s.hostname } : DepRef)])) ∧
      up.subPhases.map (fun c => (c.dataServer, c.requires)) =
        (lead :: others).map (fun s =>
          (some s, [({ path := "/etcd/shutdown", target := some s.hostname } : DepRef)])) ∧
      re.dataServer = some lead ∧ re.executor = some updateEtcdRestore ∧
      re.subPhases = [] ∧ re.requires = [] ∧ re.mode = .sequential ∧
      rs.subPhases.map (fun c => (c.dataServer, c.requires, c.executor, c.mode)) =
        ((some lead, [({ path := "/etcd/restore", target := some lead.hostname } : DepRef)],
            some updateEtcdRestart, AttachMode.depGated) ::
          others.map (fun s =>
            (some s, [({ path := "/etcd/upgrade", target := some s.hostname } : DepRef)],
              some updateEtcdRestart, AttachMode.depGated))) ++
          [(some lead, [], some updateEtcdRestartGravity, AttachMode.parallel)] := by
  rw [etcdPlan_eq]
  refine ⟨attached "/etcd" .sequential (bkStage lead others),
    attached "/etcd" .parallel (sdStage lead others),
    attached "/etcd" .parallel (upStage lead others),
    attached "/etcd" .sequential (restoreP lead),
    attached "/etcd" .parallel (rsStage lead others),
    rfl, ?_, ?_, ?_, ?_, ?_, ?_, ?_, ?_, ?_, ?_, ?_, ?_, ?_, ?_⟩
  · rw [attached_id_abs _ _ _ (by rw [bkStage_id]; decide)]
    exact bkStage_id lead others
  · rw [attached_id_abs _ _ _ (by rw [sdStage_id]; decide)]
    exact sdStage_id lead others
  · rw [attached_id_abs _ _ _ (by rw [upStage_id]; decide)]
    exact upStage_id lead others
  · rw [attached_id_abs _ _ _ (by rw [show (restoreP lead).id = "/etcd/restore" from rfl]; decide)]
    rfl
  · rw [attached_id_abs _ _ _ (by rw [rsStage_id]; decide)]
    exact rsStage_id lead others
  · rw [attached_subPhases, bkStage, Phase.subPhases_withPhases]
    simp only [List.map_map, List.map_cons]
    rfl
  · rw [attached_subPhases, sdStage, Phase.subPhases_withPhases]
    simp only [List.map_map, List.map_cons]
    rfl
  · rw [attached_subPhases, upStage, Phase.subPhases_withPhases]
    simp only [List.map_map, List.map_cons]
    rfl
  · rfl
  · rfl
  · rfl
  · rfl
  · rfl
  · rw [attached_subPhases, rsStage, Phase.subPhases_withPhases]
    simp only [List.map_append, List.map_cons, List.map_map, List.map_nil,
      List.cons_append]
    rfl

/-- The etcd sub-plan built for lead `node-1` with one other master
`node-2`. -/
def c5Plan : Phase :=
  etcdPlan { hostname := "node-1" } [{ hostname := "node-2" }] [] "3.3.11" "3.4.3"

/-- C5 counterexample: in a two-master etcd sub-plan, the restore phase is
the fourth stage — attached sequentially right after the upgrade stage, not
the shutdown stage — and carries no dependency reference at all (so it is
not dependency-gated on the full shutdown stage, contrary to the claim);
and the lead's restart phase is gated on the restore phase scoped to the
lead, carrying no reference to its own upgrade phase nor to the full
upgrade stage (contrary to the claim). -/
theorem c5_counterexample :
    c5Plan.subPhases.map Phase.id =
      ["/etcd/backup", "/etcd/shutdown", "/etcd/upgrade", "/etcd/restore",
        "/etcd/restart"] ∧
    (∃ q ∈ c5Plan.allPhases, q.id = "/etcd/restore" ∧ q.requires = [] ∧
      q.mode = .sequential) ∧
    (¬ ∃ q ∈ c5Plan.allPhases, q.id = "/etcd/restore" ∧
      ∃ d ∈ q.requires, d.path = "/etcd/shutdown") ∧
    (∃ q ∈ c5Plan.allPhases, q.id = "/etcd/restart/node-1" ∧
      q.requires = [{ path := "/etcd/restore", target := some "node-1" }]) ∧
    (¬ ∃ q ∈ c5Plan.allPhases, q.id = "/etcd/restart/node-1" ∧
      ∃ d ∈ q.requires, (d.path = "/etcd/upgrade" ∨ d.path = "/etcd/upgrade/node-1")) := by
  decide

/-!
## C1 — no dangling dependency references, acyclic dependency graph

Every explicit dependency reference of a constructed plan comes from the
`AddWithDependency` calls of the etcd sub-plan; every other builder only
ever attaches requirement-free phases.  We characterise the requires of a
whole plan, exhibit the referenced stage phases, and give an explicit rank
function that decreases along every dependency edge.
-/

/-- The root of the subtree carries no dependency reference and every
phase of the subtree satisfies `Q`. -/
def AllQOk (Q : Phase → Prop) (t : Phase) : Prop :=
  t.requires = [] ∧ ∀ p ∈ t.allPhases, Q p

theorem allQOk_of_reqsEmpty {Q : Phase → Prop} (hQ : ∀ p, p.requires = [] → Q p)
    {t : Phase} (h : ReqsEmpty t) : AllQOk Q t :=
  ⟨h t (self_mem_allPhases t), fun p hp => hQ p (h p hp)⟩

/-- Attaching children whose subtrees satisfy `Q` (with requirement-free
roots) to a parent satisfying `Q` yields a tree satisfying `Q`. -/
theorem allQOk_addChildren {Q : Phase → Prop} (hQ : ∀ p, p.requires = [] → Q p)
    (m : AttachMode) (par : Phase) (cs : List Phase)
    (hpar : AllQOk Q par) (hcs : ∀ c ∈ cs, AllQOk Q c) :
    AllQOk Q (addChildren m par cs) := by
  rw [addChildren_eq]
  constructor
  · rw [Phase.requires_withPhases]; exact hpar.1
  · intro p hp
    rcases mem_allPhases_iff.mp hp with rfl | ⟨c, hc, hpc⟩
    · exact hQ _ (by rw [Phase.requires_withPhases]; exact hpar.1)
    · rw [Phase.subPhases_withPhases] at hc
      rcases List.mem_append.mp hc with hc | hc
      · exact hpar.2 p (mem_allPhases_iff.mpr (Or.inr ⟨c, hc, hpc⟩))
      · rcases List.mem_map.mp hc with ⟨c0, hc0, rfl⟩
        rcases mem_allPhases_iff.mp hpc with rfl | ⟨c1, hc1, hpc1⟩
        · exact hQ _ (by rw [attached_requires]; exact (hcs c0 hc0).1)
        · rw [attached_subPhases] at hc1
          exact (hcs c0 hc0).2 p (mem_allPhases_iff.mpr (Or.inr ⟨c1, hc1, hpc1⟩))

theorem allQOk_seq {Q : Phase → Prop} (hQ : ∀ p, p.requires = [] → Q p)
    (par x : Phase) (hpar : AllQOk Q par) (hx : AllQOk Q x) :
    AllQOk Q (addSequential par [x]) := by
  refine allQOk_addChildren hQ .sequential par [x] hpar ?_
  intro c hc
  rcases List.mem_singleton.mp hc with rfl
  exact hx

theorem allQOk_if {Q : Phase → Prop} (hQ : ∀ p, p.requires = [] → Q p)
    (b : Bool) (par x : Phase) (hpar : AllQOk Q par) (hx : AllQOk Q x) :
    AllQOk Q (if b then addSequential par [x] else par) := by
  cases b
  · exact hpar
  · exact allQOk_seq hQ par x hpar hx

theorem reqsEmpty_foldl {α : Type} (step : Phase → α → Phase)
    (hstep : ∀ st a, ReqsEmpty st → ReqsEmpty (step st a))
    (l : List α) (st0 : Phase) (h0 : ReqsEmpty st0) :
    ReqsEmpty (l.foldl step st0) := by
  induction l generalizing st0 with
  | nil => exact h0
  | cons a l ih => exact ih _ (hstep _ _ h0)

theorem reqsEmpty_addChildren (m : AttachMode) (par : Phase) (cs : List Phase)
    (hpar : ReqsEmpty par) (hcs : ∀ c ∈ cs, ReqsEmpty c) :
    ReqsEmpty (addChildren m par cs) := by
  rw [addChildren_eq]
  apply reqsEmpty_withPhases ((reqsEmpty_iff.mp hpar).1)
  intro c hc
  rcases List.mem_append.mp hc with hc | hc
  · exact (reqsEmpty_iff.mp hpar).2 c hc
  · rcases List.mem_map.mp hc with ⟨c0, hc0, rfl⟩
    exact reqsEmpty_attached (hcs c0 hc0)

theorem sub_mem_allPhases {q t : Phase} (h : q ∈ allPhasesList t.subPhases) :
    q ∈ t.allPhases := by
  rw [Phase.allPhases_def]
  exact List.mem_cons_of_mem _ h

theorem mem_sub_addChildren_left {q : Phase} (m : AttachMode) (par : Phase)
    (cs : List Phase) (h : q ∈ allPhasesList par.subPhases) :
    q ∈ allPhasesList (addChildren m par cs).subPhases := by
  rw [addChildren_eq, Phase.subPhases_withPhases, allPhasesList_append]
  exact List.mem_append_left _ h

theorem mem_sub_addChildren_new {q c : Phase} (m : AttachMode) (par : Phase)
    (cs : List Phase) (hc : c ∈ cs) (h : q ∈ allPhasesList c.subPhases) :
    q ∈ allPhasesList (addChildren m par cs).subPhases := by
  rw [addChildren_eq, Phase.subPhases_withPhases, allPhasesList_append]
  apply List.mem_append_right
  apply mem_allPhasesList.mpr
  refine ⟨attached par.id m c, List.mem_map_of_mem _ hc, ?_⟩
  rw [Phase.allPhases_def, attached_subPhases]
  exact List.mem_cons_of_mem _ h

theorem reqsEmpty_rootLeaf (i d : String) (e : Option String)
    (dt : Option PhaseData) (m : AttachMode) :
    ReqsEmpty (rootPhase (.node i d e dt [] m [])) :=
  reqsEmpty_leaf ("/" ++ i) d e dt m

/-- Every phase of the common-node sequence is a leaf with no dependency
reference. -/
theorem commonNode_all_leafy (s lm : UpdateServer) (st wfe : Bool)
    (ec : ElectionChanges) :
    (commonNode s lm st wfe ec).all
      (fun c => c.requires.isEmpty && c.subPhases.isEmpty) = true := by
  cases st <;> cases wfe <;> cases h1 : ec.shouldAddPhase <;>
    simp only [commonNode, h1] <;> rfl

theorem commonNode_reqsEmpty (s lm : UpdateServer) (st wfe : Bool)
    (ec : ElectionChanges) : ∀ c ∈ commonNode s lm st wfe ec, ReqsEmpty c := by
  intro c hc
  have h := commonNode_all_leafy s lm st wfe ec
  rw [List.all_eq_true] at h
  have hc' := h c hc
  rw [Bool.and_eq_true, List.isEmpty_iff, List.isEmpty_iff] at hc'
  rw [reqsEmpty_iff]
  refine ⟨hc'.1, fun x hx => ?_⟩
  rw [hc'.2] at hx
  cases hx

theorem reqsEmpty_addSequential (par : Phase) (cs : List Phase)
    (hpar : ReqsEmpty par) (hcs : ∀ c ∈ cs, ReqsEmpty c) :
    ReqsEmpty (addSequential par cs) :=
  reqsEmpty_addChildren .sequential par cs hpar hcs

theorem reqsEmpty_addParallel (par : Phase) (cs : List Phase)
    (hpar : ReqsEmpty par) (hcs : ∀ c ∈ cs, ReqsEmpty c) :
    ReqsEmpty (addParallel par cs) :=
  reqsEmpty_addChildren .parallel par cs hpar hcs

theorem init_reqsEmpty (r : phaseBuilder) (lm : Server) : ReqsEmpty (r.init lm) :=
  reqsEmpty_rootLeaf _ _ _ _ _

theorem checks_reqsEmpty (r : phaseBuilder) : ReqsEmpty r.checks :=
  reqsEmpty_rootLeaf _ _ _ _ _

theorem preUpdate_reqsEmpty (r : phaseBuilder) : ReqsEmpty r.preUpdatePhase :=
  reqsEmpty_rootLeaf _ _ _ _ _

theorem coredns_reqsEmpty (r : phaseBuilder) (lm : Server) :
    ReqsEmpty (r.corednsPhase lm) :=
  reqsEmpty_rootLeaf _ _ _ _ _

theorem openEBS_reqsEmpty (r : phaseBuilder) (lm : UpdateServer) :
    ReqsEmpty (r.openEBS lm) :=
  reqsEmpty_rootLeaf _ _ _ _ _

theorem bootstrapSELinux_reqsEmpty (r : phaseBuilder) :
    ReqsEmpty r.bootstrapSELinux := by
  unfold phaseBuilder.bootstrapSELinux
  apply reqsEmpty_foldl
  · intro st a h
    cases hsel : a.server.selinux
    · exact h
    · apply reqsEmpty_addParallel _ _ h
      intro c hc
      rcases List.mem_singleton.mp hc with rfl
      exact reqsEmpty_leaf _ _ _ _ _
  · exact reqsEmpty_rootLeaf _ _ _ _ _

theorem bootstrap_reqsEmpty (r : phaseBuilder) : ReqsEmpty r.bootstrap := by
  unfold phaseBuilder.bootstrap
  apply reqsEmpty_foldl
  · intro st a h
    apply reqsEmpty_addParallel _ _ h
    intro c hc
    rcases List.mem_singleton.mp hc with rfl
    exact reqsEmpty_leaf _ _ _ _ _
  · exact reqsEmpty_rootLeaf _ _ _ _ _

theorem app_reqsEmpty (r : phaseBuilder) (updates : List Locator) :
    ReqsEmpty (r.app updates) := by
  unfold phaseBuilder.app
  apply reqsEmpty_foldl
  · intro st a h
    apply reqsEmpty_addParallel _ _ h
    intro c hc
    rcases List.mem_singleton.mp hc with rfl
    exact reqsEmpty_leaf _ _ _ _ _
  · exact reqsEmpty_rootLeaf _ _ _ _ _

theorem runtime_reqsEmpty (updates : List Locator) : ReqsEmpty (runtime updates) := by
  unfold runtime
  apply reqsEmpty_foldl
  · intro st a h
    apply reqsEmpty_addSequential _ _ h
    intro c hc
    rcases List.mem_singleton.mp hc with rfl
    exact reqsEmpty_leaf _ _ _ _ _
  · exact reqsEmpty_rootLeaf _ _ _ _ _

theorem cleanup_reqsEmpty (r : phaseBuilder) : ReqsEmpty r.cleanup := by
  unfold phaseBuilder.cleanup
  apply reqsEmpty_foldl
  · intro st a h
    apply reqsEmpty_addParallel _ _ h
    intro c hc
    rcases List.mem_singleton.mp hc with rfl
    exact reqsEmpty_leaf _ _ _ _ _
  · exact reqsEmpty_rootLeaf _ _ _ _ _

theorem masters_reqsEmpty (lead : UpdateServer) (others : List UpdateServer)
    (st : Bool) : ReqsEmpty (masters lead others st) := by
  unfold masters
  apply reqsEmpty_foldl
  · intro rt server h
    apply reqsEmpty_addSequential _ _ h
    intro c hc
    rcases List.mem_singleton.mp hc with rfl
    apply reqsEmpty_addSequential
    · exact reqsEmpty_leaf _ _ _ _ _
    · exact commonNode_reqsEmpty _ _ _ _ _
  · apply reqsEmpty_addSequential
    · exact reqsEmpty_rootLeaf _ _ _ _ _
    · intro c hc
      rcases List.mem_singleton.mp hc with rfl
      cases hne : (others.length != 0)
      · rw [if_neg Bool.false_ne_true]
        apply reqsEmpty_addSequential
        · exact reqsEmpty_leaf _ _ _ _ _
        · exact commonNode_reqsEmpty _ _ _ _ _
      · rw [if_pos rfl]
        apply reqsEmpty_addSequential
        · apply reqsEmpty_addSequential
          · apply reqsEmpty_addSequential
            · exact reqsEmpty_leaf _ _ _ _ _
            · intro c' hc'
              rcases List.mem_singleton.mp hc' with rfl
              exact reqsEmpty_leaf _ _ _ _ _
          · intro c' hc'
            rcases List.mem_singleton.mp hc' with rfl
            exact reqsEmpty_leaf _ _ _ _ _
        · exact commonNode_reqsEmpty _ _ _ _ _

theorem nodes_reqsEmpty (lead : UpdateServer) (workers : List UpdateServer)
    (st : Bool) : ReqsEmpty (nodes lead workers st) := by
  unfold nodes
  apply reqsEmpty_foldl
  · intro rt server h
    apply reqsEmpty_addParallel _ _ h
    intro c hc
    rcases List.mem_singleton.mp hc with rfl
    apply reqsEmpty_addSequential
    · exact reqsEmpty_leaf _ _ _ _ _
    · exact commonNode_reqsEmpty _ _ _ _ _
  · exact reqsEmpty_rootLeaf _ _ _ _ _

theorem migration_reqsEmpty (r : phaseBuilder) (lm : Server) (m : Phase)
    (h : r.migration lm = some m) : ReqsEmpty m := by
  rw [migration_eq] at h
  obtain rfl := Option.some.inj h
  apply reqsEmpty_addParallel
  · exact reqsEmpty_rootLeaf _ _ _ _ _
  · intro c hc
    rcases List.mem_append.mp hc with hc | hc
    · rcases List.mem_append.mp hc with hc | hc
      · split at hc
        · rcases List.mem_singleton.mp hc with rfl
          exact reqsEmpty_leaf _ _ _ _ _
        · cases hc
      · rcases List.mem_singleton.mp hc with rfl
        exact reqsEmpty_leaf _ _ _ _ _
    · split at hc
      · rcases List.mem_singleton.mp hc with rfl
        exact reqsEmpty_leaf _ _ _ _ _
      · cases hc

theorem openEBSUpgrade_reqsEmpty (r : phaseBuilder) (lead : UpdateServer)
    (root res : Phase) (hroot : ReqsEmpty root)
    (h : r.openEBSUpgrade lead root = .ok res) : ReqsEmpty res := by
  unfold phaseBuilder.openEBSUpgrade at h
  split at h
  · exact Except.noConfusion h
  · split at h
    · exact Except.noConfusion h
    · split at h
      · exact Except.noConfusion h
      · split at h
        · exact Except.noConfusion h
        · obtain rfl := Except.ok.inj h
          apply reqsEmpty_foldl
          · intro st a hst
            apply reqsEmpty_addSequential _ _ hst
            intro c hc
            rcases List.mem_singleton.mp hc with rfl
            exact reqsEmpty_leaf _ _ _ _ _
          · apply reqsEmpty_foldl
            · intro st a hst
              apply reqsEmpty_addSequential _ _ hst
              intro c hc
              rcases List.mem_singleton.mp hc with rfl
              exact reqsEmpty_leaf _ _ _ _ _
            · exact hroot

theorem bkChild_requires (s : Server) : (bkChild s).requires = [] := rfl

theorem sdChild_requires (s : Server) (b : Bool) :
    (sdChild s b).requires =
      [{ path := "/etcd/backup", target := some s.hostname }] := rfl

theorem upChild_requires (s : Server) :
    (upChild s).requires =
      [{ path := "/etcd/shutdown", target := some s.hostname }] := rfl

theorem rsLeadChild_requires (lead : Server) :
    (rsLeadChild lead).requires =
      [{ path := "/etcd/restore", target := some lead.hostname }] := rfl

theorem rsOtherChild_requires (lead s : Server) :
    (rsOtherChild lead s).requires =
      [{ path := "/etcd/upgrade", target := some s.hostname }] := rfl

theorem rsGravityChild_requires (lead : Server) :
    (rsGravityChild lead).requires = [] := rfl

theorem sdChild_id (s : Server) (b : Bool) :
    (sdChild s b).id = "/etcd/shutdown" ++ "/" ++ s.hostname := by
  unfold sdChild
  rw [attached_id_abs]
  · rfl
  · exact absPath_append ("/etcd/shutdown" ++ "/") s.hostname (by decide)

theorem upChild_id (s : Server) :
    (upChild s).id = "/etcd/upgrade" ++ "/" ++ s.hostname := by
  unfold upChild
  rw [attached_id_abs]
  · rfl
  · exact absPath_append ("/etcd/upgrade" ++ "/") s.hostname (by decide)

theorem rsLeadChild_id (lead : Server) :
    (rsLeadChild lead).id = "/etcd/restart" ++ "/" ++ lead.hostname := by
  unfold rsLeadChild
  rw [attached_id_abs]
  · rfl
  · exact absPath_append ("/etcd/restart" ++ "/") lead.hostname (by decide)

theorem rsOtherChild_id (lead s : Server) :
    (rsOtherChild lead s).id = "/etcd/restart" ++ "/" ++ s.hostname := by
  unfold rsOtherChild
  rw [attached_id_abs]
  · rfl
  · exact absPath_append ("/etcd/restart" ++ "/") s.hostname (by decide)

/-- The shape of every dependency-carrying phase of a constructed plan:
one of the four per-node dependency-gated etcd phases, carrying exactly one
reference to the preceding stage, scoped to its own node. -/
def EtcdDep (p : Phase) : Prop :=
  (∃ h : String, p.id = "/etcd/shutdown" ++ "/" ++ h ∧
    p.requires = [{ path := "/etcd/backup", target := some h }]) ∨
  (∃ h : String, p.id = "/etcd/upgrade" ++ "/" ++ h ∧
    p.requires = [{ path := "/etcd/shutdown", target := some h }]) ∨
  (∃ h : String, p.id = "/etcd/restart" ++ "/" ++ h ∧
    p.requires = [{ path := "/etcd/restore", target := some h }]) ∨
  (∃ h : String, p.id = "/etcd/restart" ++ "/" ++ h ∧
    p.requires = [{ path := "/etcd/upgrade", target := some h }])

/-- Every phase of the etcd sub-plan either carries no dependency reference
or is one of the four per-node dependency-gated shapes. -/
theorem etcdPlan_allQ (lead : Server) (others workers : List Server)
    (cv dv : String) :
    AllQOk (fun p => p.requires = [] ∨ EtcdDep p)
      (etcdPlan lead others workers cv dv) := by
  rw [etcdPlan_eq]
  constructor
  · rfl
  · intro p hp
    rcases mem_allPhases_iff.mp hp with rfl | ⟨c, hc, hpc⟩
    · left; rfl
    · simp only [Phase.subPhases_node, List.mem_cons, List.not_mem_nil, or_false] at hc
      rcases hc with rfl | rfl | rfl | rfl | rfl
      · -- backup stage
        rw [Phase.allPhases_def, attached_subPhases] at hpc
        rcases List.mem_cons.mp hpc with rfl | hpc
        · left; rfl
        · rw [show (bkStage lead others).subPhases =
              (lead :: others).map (fun s => bkChild s) from rfl] at hpc
          rcases mem_allPhasesList.mp hpc with ⟨c1, hc1, hp1⟩
          rcases List.mem_map.mp hc1 with ⟨s, hs, rfl⟩
          rw [Phase.allPhases_def, show (bkChild s).subPhases = [] from rfl] at hp1
          rcases List.mem_cons.mp hp1 with rfl | hp1
          · left; rfl
          · cases hp1
      · -- shutdown stage
        rw [Phase.allPhases_def, attached_subPhases] at hpc
        rcases List.mem_cons.mp hpc with rfl | hpc
        · left; rfl
        · rw [show (sdStage lead others).subPhases =
              sdChild lead true :: others.map (fun s => sdChild s false) from rfl] at hpc
          rcases mem_allPhasesList.mp hpc with ⟨c1, hc1, hp1⟩
          have hleaf : ∃ s : Server, ∃ b : Bool, c1 = sdChild s b := by
            rcases List.mem_cons.mp hc1 with rfl | hc1
            · exact ⟨lead, true, rfl⟩
            · rcases List.mem_map.mp hc1 with ⟨s, hs, rfl⟩
              exact ⟨s, false, rfl⟩
          obtain ⟨s, b, rfl⟩ := hleaf
          rw [Phase.allPhases_def, show (sdChild s b).subPhases = [] from rfl] at hp1
          rcases List.mem_cons.mp hp1 with rfl | hp1
          · right; left; exact ⟨s.hostname, sdChild_id s b, sdChild_requires s b⟩
          · cases hp1
      · -- upgrade stage
        rw [Phase.allPhases_def, attached_subPhases] at hpc
        rcases List.mem_cons.mp hpc with rfl | hpc
        · left; rfl
        · rw [show (upStage lead others).subPhases =
              (lead :: others).map (fun s => upChild s) from rfl] at hpc
          rcases mem_allPhasesList.mp hpc with ⟨c1, hc1, hp1⟩
          rcases List.mem_map.mp hc1 with ⟨s, hs, rfl⟩
          rw [Phase.allPhases_def, show (upChild s).subPhases = [] from rfl] at hp1
          rcases List.mem_cons.mp hp1 with rfl | hp1
          · right; right; left; exact ⟨s.hostname, upChild_id s, upChild_requires s⟩
          · cases hp1
      · -- restore phase
        rw [Phase.allPhases_def, attached_subPhases] at hpc
        rcases List.mem_cons.mp hpc with rfl | hpc
        · left; rfl
        · rw [show (restoreP lead).subPhases = [] from rfl] at hpc
          cases hpc
      · -- restart stage
        rw [Phase.allPhases_def, attached_subPhases] at hpc
        rcases List.mem_cons.mp hpc with rfl | hpc
        · left; rfl
        · rw [show (rsStage lead others).subPhases =
              (rsLeadChild lead :: others.map (fun s => rsOtherChild lead s)) ++
                [rsGravityChild lead] from rfl] at hpc
          rcases mem_allPhasesList.mp hpc with ⟨c1, hc1, hp1⟩
          rcases List.mem_append.mp hc1 with hc1 | hc1
          · have hleaf : (∃ s : Server, c1 = rsOtherChild lead s) ∨ c1 = rsLeadChild lead := by
              rcases List.mem_cons.mp hc1 with rfl | hc1
              · exact Or.inr rfl
              · rcases List.mem_map.mp hc1 with ⟨s, hs, rfl⟩
                exact Or.inl ⟨s, rfl⟩
            rcases hleaf with ⟨s, rfl⟩ | rfl
            · rw [Phase.allPhases_def,
                show (rsOtherChild lead s).subPhases = [] from rfl] at hp1
              rcases List.mem_cons.mp hp1 with rfl | hp1
              · right; right; right; right
                exact ⟨s.hostname, rsOtherChild_id lead s, rsOtherChild_requires lead s⟩
              · cases hp1
            · rw [Phase.allPhases_def,
                show (rsLeadChild lead).subPhases = [] from rfl] at hp1
              rcases List.mem_cons.mp hp1 with rfl | hp1
              · right; right; right; left
                exact ⟨lead.hostname, rsLeadChild_id lead, rsLeadChild_requires lead⟩
              · cases hp1
          · rcases List.mem_singleton.mp hc1 with rfl
            rw [Phase.allPhases_def,
              show (rsGravityChild lead).subPhases = [] from rfl] at hp1
            rcases List.mem_cons.mp hp1 with rfl | hp1
            · left; rfl
            · cases hp1

/-- The four referenced stage phases exist among the children of the etcd
sub-plan, under their referenced paths. -/
theorem etcdPlan_targets (lead : Server) (others workers : List Server)
    (cv dv : String) :
    (∃ q ∈ allPhasesList (etcdPlan lead others workers cv dv).subPhases,
      q.id = "/etcd/backup") ∧
    (∃ q ∈ allPhasesList (etcdPlan lead others workers cv dv).subPhases,
      q.id = "/etcd/shutdown") ∧
    (∃ q ∈ allPhasesList (etcdPlan lead others workers cv dv).subPhases,
      q.id = "/etcd/upgrade") ∧
    (∃ q ∈ allPhasesList (etcdPlan lead others workers cv dv).subPhases,
      q.id = "/etcd/restore") := by
  rw [etcdPlan_eq]
  refine ⟨⟨attached "/etcd" .sequential (bkStage lead others), ?_, ?_⟩,
    ⟨attached "/etcd" .parallel (sdStage lead others), ?_, ?_⟩,
    ⟨attached "/etcd" .parallel (upStage lead others), ?_, ?_⟩,
    ⟨attached "/etcd" .sequential (restoreP lead), ?_, ?_⟩⟩
  · exact mem_allPhasesList.mpr ⟨_, by simp [Phase.subPhases_node], self_mem_allPhases _⟩
  · rw [attached_id_abs _ _ _ (by rw [bkStage_id]; decide)]
    exact bkStage_id lead others
  · exact mem_allPhasesList.mpr ⟨_, by simp [Phase.subPhases_node], self_mem_allPhases _⟩
  · rw [attached_id_abs _ _ _ (by rw [sdStage_id]; decide)]
    exact sdStage_id lead others
  · exact mem_allPhasesList.mpr ⟨_, by simp [Phase.subPhases_node], self_mem_allPhases _⟩
  · rw [attached_id_abs _ _ _ (by rw [upStage_id]; decide)]
    exact upStage_id lead others
  · exact mem_allPhasesList.mpr ⟨_, by simp [Phase.subPhases_node], self_mem_allPhases _⟩
  · rw [attached_id_abs _ _ _
      (by rw [show (restoreP lead).id = "/etcd/restore" from rfl]; decide)]
    rfl

theorem allQOk_mono {Q R : Phase → Prop} (h : ∀ p, Q p → R p) {t : Phase}
    (ht : AllQOk Q t) : AllQOk R t :=
  ⟨ht.1, fun p hp => h p (ht.2 p hp)⟩

theorem allQOk_if_dep {Q : Phase → Prop} (hQ : ∀ p, p.requires = [] → Q p)
    (b : Bool) (par x : Phase) (hpar : AllQOk Q par)
    (hx : b = true → AllQOk Q x) :
    AllQOk Q (if b then addSequential par [x] else par) := by
  cases b
  · exact hpar
  · exact allQOk_seq hQ par x hpar (hx rfl)

theorem allQOk_baseLeaf {Q : Phase → Prop} (hQ : ∀ p, p.requires = [] → Q p)
    (i d : String) (e : Option String) (dt : Option PhaseData) (m : AttachMode) :
    AllQOk Q (.node i d e dt [] m []) :=
  allQOk_of_reqsEmpty hQ (reqsEmpty_leaf i d e dt m)

/-- Every phase of a plan the given builder constructed either carries no
dependency reference, or is one of the four per-node dependency-gated etcd
phases (which in turn requires the etcd sub-plan to have been included). -/
def PlanDepOk (r : phaseBuilder) (p : Phase) : Prop :=
  p.requires = [] ∨ (EtcdDep p ∧ r.etcdUpdateNeeded = true)


theorem buildPlan_allQ (r : phaseBuilder) (plan : Phase)
    (h : buildPlan r = .ok plan) :
    ∀ p ∈ plan.allPhases, PlanDepOk r p := by
  have hQ : ∀ p : Phase, p.requires = [] → PlanDepOk r p := fun p hp => Or.inl hp
  unfold buildPlan at h
  cases hsd : r.storageComponentsDiscovered
  · rw [hsd] at h
    obtain rfl := Except.ok.inj h
    refine (allQOk_seq hQ _ _ ?_ (allQOk_of_reqsEmpty hQ (cleanup_reqsEmpty r))).2
    rw [migration_eq]
    refine allQOk_seq hQ _ _ ?_
      (allQOk_of_reqsEmpty hQ (migration_reqsEmpty r _ _ (migration_eq r _)))
    refine allQOk_seq hQ _ _ ?_
      (allQOk_of_reqsEmpty hQ (nodes_reqsEmpty _ _ _))
    refine allQOk_seq hQ _ _ ?_
      (allQOk_of_reqsEmpty hQ (masters_reqsEmpty _ _ _))
    refine allQOk_if_dep hQ _ _ _ ?_ (fun he =>
      allQOk_mono (fun p hp => hp.elim Or.inl (fun hd => Or.inr ⟨hd, he⟩))
        (etcdPlan_allQ _ _ _ _ _))
    refine allQOk_seq hQ _ _ ?_
      (allQOk_of_reqsEmpty hQ (runtime_reqsEmpty _))
    refine allQOk_seq hQ _ _ ?_
      (allQOk_of_reqsEmpty hQ (app_reqsEmpty r _))
    refine allQOk_if hQ _ _ _ ?_
      (allQOk_of_reqsEmpty hQ (coredns_reqsEmpty r _))
    refine allQOk_seq hQ _ _ ?_
      (allQOk_of_reqsEmpty hQ (preUpdate_reqsEmpty r))
    refine allQOk_seq hQ _ _ ?_
      (allQOk_of_reqsEmpty hQ (bootstrap_reqsEmpty r))
    refine allQOk_if hQ _ _ _ ?_
      (allQOk_of_reqsEmpty hQ (bootstrapSELinux_reqsEmpty r))
    refine allQOk_seq hQ _ _ ?_
      (allQOk_of_reqsEmpty hQ (checks_reqsEmpty r))
    refine allQOk_seq hQ _ _ ?_
      (allQOk_of_reqsEmpty hQ (init_reqsEmpty r _))
    exact allQOk_baseLeaf hQ _ _ _ _ _
  · cases hou : r.openEBSUpgrade r.leadMaster (r.openEBS r.leadMaster) with
    | error e =>
      rw [hsd, hou] at h
      exact Except.noConfusion h
    | ok stage =>
      rw [hsd, hou] at h
      obtain rfl := Except.ok.inj h
      refine (allQOk_seq hQ _ _ ?_ (allQOk_of_reqsEmpty hQ (cleanup_reqsEmpty r))).2
      rw [migration_eq]
      refine allQOk_seq hQ _ _ ?_
        (allQOk_of_reqsEmpty hQ (migration_reqsEmpty r _ _ (migration_eq r _)))
      refine allQOk_seq hQ _ _ ?_
        (allQOk_of_reqsEmpty hQ (nodes_reqsEmpty _ _ _))
      refine allQOk_seq hQ _ _ ?_
        (allQOk_of_reqsEmpty hQ (masters_reqsEmpty _ _ _))
      refine allQOk_if_dep hQ _ _ _ ?_ (fun he =>
        allQOk_mono (fun p hp => hp.elim Or.inl (fun hd => Or.inr ⟨hd, he⟩))
          (etcdPlan_allQ _ _ _ _ _))
      refine allQOk_seq hQ _ _ ?_
        (allQOk_of_reqsEmpty hQ (runtime_reqsEmpty _))
      refine allQOk_seq hQ _ _ ?_
        (allQOk_of_reqsEmpty hQ
          (openEBSUpgrade_reqsEmpty r r.leadMaster _ _
            (openEBS_reqsEmpty r r.leadMaster) hou))
      refine allQOk_seq hQ _ _ ?_
        (allQOk_of_reqsEmpty hQ (app_reqsEmpty r _))
      refine allQOk_if hQ _ _ _ ?_
        (allQOk_of_reqsEmpty hQ (coredns_reqsEmpty r _))
      refine allQOk_seq hQ _ _ ?_
        (allQOk_of_reqsEmpty hQ (preUpdate_reqsEmpty r))
      refine allQOk_seq hQ _ _ ?_
        (allQOk_of_reqsEmpty hQ (bootstrap_reqsEmpty r))
      refine allQOk_if hQ _ _ _ ?_
        (allQOk_of_reqsEmpty hQ (bootstrapSELinux_reqsEmpty r))
      refine allQOk_seq hQ _ _ ?_
        (allQOk_of_reqsEmpty hQ (checks_reqsEmpty r))
      refine allQOk_seq hQ _ _ ?_
        (allQOk_of_reqsEmpty hQ (init_reqsEmpty r _))
      exact allQOk_baseLeaf hQ _ _ _ _ _

/-- When the etcd sub-plan is included, all four referenced stage phases
exist in the final plan. -/
theorem buildPlan_targets (r : phaseBuilder) (plan : Phase)
    (h : buildPlan r = .ok plan) (he : r.etcdUpdateNeeded = true) :
    (∃ q ∈ plan.allPhases, q.id = "/etcd/backup") ∧
    (∃ q ∈ plan.allPhases, q.id = "/etcd/shutdown") ∧
    (∃ q ∈ plan.allPhases, q.id = "/etcd/upgrade") ∧
    (∃ q ∈ plan.allPhases, q.id = "/etcd/restore") := by
  obtain ⟨⟨qb, hqb, hib⟩, ⟨qs, hqs, his⟩, ⟨qu, hqu, hiu⟩, ⟨qr, hqr, hir⟩⟩ :=
    etcdPlan_targets r.leadMaster.server (serversToStorage r.otherMasters)
      (serversToStorage r.workers) r.etcdCurrentVersion r.etcdDesiredVersion
  have key : ∀ q : Phase,
      q ∈ allPhasesList (etcdPlan r.leadMaster.server
        (serversToStorage r.otherMasters) (serversToStorage r.workers)
        r.etcdCurrentVersion r.etcdDesiredVersion).subPhases →
      q ∈ plan.allPhases := by
    intro q hq
    unfold buildPlan at h
    cases hsd : r.storageComponentsDiscovered
    · rw [hsd] at h
      obtain rfl := Except.ok.inj h
      apply sub_mem_allPhases
      apply mem_sub_addChildren_left
      rw [migration_eq]
      apply mem_sub_addChildren_left
      apply mem_sub_addChildren_left
      apply mem_sub_addChildren_left
      rw [he]
      exact mem_sub_addChildren_new _ _ _ (List.mem_singleton.mpr rfl) hq
    · cases hou : r.openEBSUpgrade r.leadMaster (r.openEBS r.leadMaster) with
      | error e => rw [hsd, hou] at h; exact Except.noConfusion h
      | ok stage =>
        rw [hsd, hou] at h
        obtain rfl := Except.ok.inj h
        apply sub_mem_allPhases
        apply mem_sub_addChildren_left
        rw [migration_eq]
        apply mem_sub_addChildren_left
        apply mem_sub_addChildren_left
        apply mem_sub_addChildren_left
        rw [he]
        exact mem_sub_addChildren_new _ _ _ (List.mem_singleton.mpr rfl) hq
  exact ⟨⟨qb, key qb hqb, hib⟩, ⟨qs, key qs hqs, his⟩,
    ⟨qu, key qu hqu, hiu⟩, ⟨qr, key qr hqr, hir⟩⟩

/-- Appending a suffix to a prefix at least as long as a target string
never yields the target unless the prefix already was the target. -/
theorem append_ne_of_short (pre t suf : String) (hlen : t.length ≤ pre.length)
    (hne : pre ≠ t) : pre ++ suf ≠ t := by
  intro heq
  have hl := congrArg String.length heq
  rw [String.length_append] at hl
  have hh : suf.length = 0 := by omega
  have hempty : suf = "" := by
    cases suf with
    | mk d =>
      cases d with
      | nil => rfl
      | cons c cs => simp [String.length] at hh
  subst hempty
  rw [String.append_empty] at heq
  exact hne heq

/-- The rank of a phase path in the dependency order of the etcd sub-plan:
the four referenced stage paths in stage order, everything else above
them. -/
def c1rank (id : String) : Nat :=
  if id = "/etcd/backup" then 1
  else if id = "/etcd/shutdown" then 2
  else if id = "/etcd/upgrade" then 3
  else if id = "/etcd/restore" then 4
  else 5

theorem c1rank_of_ne (x : String) (h1 : x ≠ "/etcd/backup")
    (h2 : x ≠ "/etcd/shutdown") (h3 : x ≠ "/etcd/upgrade")
    (h4 : x ≠ "/etcd/restore") : c1rank x = 5 := by
  unfold c1rank
  rw [if_neg h1, if_neg h2, if_neg h3, if_neg h4]

/-- The rank of any per-node etcd phase path (a stage path with a slash and
a node name appended) is 5. -/
theorem c1rank_node_path (pre suf : String) (hlen : 14 ≤ pre.length)
    (h1 : pre ≠ "/etcd/backup") (h2 : pre ≠ "/etcd/shutdown")
    (h3 : pre ≠ "/etcd/upgrade") (h4 : pre ≠ "/etcd/restore") :
    c1rank (pre ++ suf) = 5 :=
  c1rank_of_ne _
    (append_ne_of_short pre _ suf (le_trans (by decide) hlen) h1)
    (append_ne_of_short pre _ suf (le_trans (by decide) hlen) h2)
    (append_ne_of_short pre _ suf (le_trans (by decide) hlen) h3)
    (append_ne_of_short pre _ suf (le_trans (by decide) hlen) h4)

/-- C1: for every plan the builder constructs, every dependency reference
attached to a phase resolves to a phase that exists in the tree (no
dangling reference), and the dependency graph over all phases is acyclic —
an explicit rank strictly decreases along every dependency edge, so
references only ever point to phases structurally earlier (the etcd stage
phases, which are attached before every phase that references them). -/
theorem c1_no_dangling_acyclic (r : phaseBuilder) (plan : Phase)
    (h : buildPlan r = .ok plan) :
    NoDangling plan ∧ AcyclicDeps plan := by
  have hall := buildPlan_allQ r plan h
  constructor
  · intro p hp d hd
    rcases hall p hp with hreq | ⟨hdep, he⟩
    · rw [hreq] at hd; cases hd
    · obtain ⟨hb, hs, hu, hr⟩ := buildPlan_targets r plan h he
      rcases hdep with ⟨x, hid, hreq⟩ | ⟨x, hid, hreq⟩ | ⟨x, hid, hreq⟩ | ⟨x, hid, hreq⟩ <;>
        rw [hreq] at hd <;> rcases List.mem_singleton.mp hd with rfl
      · exact hb
      · exact hs
      · exact hr
      · exact hu
  · refine ⟨c1rank, ?_⟩
    intro p hp d hd
    rcases hall p hp with hreq | ⟨hdep, he⟩
    · rw [hreq] at hd; cases hd
    · rcases hdep with ⟨x, hid, hreq⟩ | ⟨x, hid, hreq⟩ | ⟨x, hid, hreq⟩ | ⟨x, hid, hreq⟩ <;>
        rw [hreq] at hd <;> rcases List.mem_singleton.mp hd with rfl <;> rw [hid]
      · rw [c1rank_node_path ("/etcd/shutdown" ++ "/") x (by decide)
          (by decide) (by decide) (by decide) (by decide)]
        show c1rank "/etcd/backup" < 5
        decide
      · rw [c1rank_node_path ("/etcd/upgrade" ++ "/") x (by decide)
          (by decide) (by decide) (by decide) (by decide)]
        show c1rank "/etcd/shutdown" < 5
        decide
      · rw [c1rank_node_path ("/etcd/restart" ++ "/") x (by decide)
          (by decide) (by decide) (by decide) (by decide)]
        show c1rank "/etcd/restore" < 5
        decide
      · rw [c1rank_node_path ("/etcd/restart" ++ "/") x (by decide)
          (by decide) (by decide) (by decide) (by decide)]
        show c1rank "/etcd/upgrade" < 5
        decide

/-- A concrete single-master configuration whose plan includes the etcd
sub-plan (the only source of dependency references). -/
def c1Builder : phaseBuilder :=
  { leadMaster := { server := { hostname := "node-1" } }
    etcdUpdateNeeded := true
    etcdDesiredVersion := "3.4.3" }

/-- The plan the builder constructs for `c1Builder`. -/
def c1PlanVal : Phase :=
  (buildPlan c1Builder).toOption.getD (.node "" "" none none [] .sequential [])

/-- C1 witness: the no-dangling and acyclicity guarantees evaluated on the
concrete plan built for `c1Builder`. -/
theorem c1_witness : NoDangling c1PlanVal ∧ AcyclicDeps c1PlanVal :=
  c1_no_dangling_acyclic c1Builder c1PlanVal rfl
